import Mathlib

/-!
Verification development for the suppression-screen scan pipeline
(netlify function in src/lib/consent.ts, second document: the
deterministic crawler + rules-based analyzer).

Modelling conventions:
* JS strings are modelled as lists of characters (Str).  JS
  toLowerCase is modelled on the ASCII range, which covers every
  pattern the code matches against.
* The network is an explicit environment (World): a pure map from a
  request URL string to an optional response.  A missing response
  models a fetch/timeout failure (the catch branch in the source).
  The response carries the platform-parsed final URL (response.url)
  as a structured Url; the source re-parses the final URL string it
  stored, which is the same value for every URL rendered by this
  model.
* WHATWG URLs are modelled by the Url structure covering the features
  the source uses: scheme, credentials, lowercased host, port, path,
  query; fragments are stripped.  JS Map/Set iteration order is
  insertion order, modelled by append-based association lists and a
  first-occurrence de-duplication function.
-/

abbrev Str := List Char

/-- Characters of a Lean string literal, used to write JS string constants. -/
def str (s : String) : Str := s.data

/-- ASCII lower-casing of one character (model of JS toLowerCase on the
patterns used by the source). -/
def lowerChar (c : Char) : Char :=
  if 'A' ≤ c ∧ c ≤ 'Z' then Char.ofNat (c.toNat + 32) else c

def lowerStr (s : Str) : Str := s.map lowerChar

/-- JS whitespace for trim, restricted to the common characters. -/
def isJsWs (c : Char) : Bool :=
  c = ' ' ∨ c = '\t' ∨ c = '\n' ∨ c = '\r' ∨ c = '\x0b' ∨ c = '\x0c'

/-- Model of String.prototype.trim. -/
def trimStr (s : Str) : Str :=
  ((s.dropWhile isJsWs).reverse.dropWhile isJsWs).reverse

/-- Model of String.prototype.includes (substring containment). -/
def containsSub (s pat : Str) : Bool :=
  if pat.isPrefixOf s then true
  else
    match s with
    | [] => false
    | _ :: t => containsSub t pat

/-- Index of the first occurrence of pat in s (model of indexOf / the
start of the first regex match for a literal pattern). -/
def findSub (s pat : Str) : Option Nat :=
  if pat.isPrefixOf s then some 0
  else
    match s with
    | [] => none
    | _ :: t => (findSub t pat).map (· + 1)

/-- Model of String.prototype.endsWith. -/
def endsWithStr (s pat : Str) : Bool := pat.isSuffixOf s

/-- First-occurrence de-duplication given an accumulator of already-seen
values: the behaviour of the JS seen-Set loops and of Array.from(new Set _). -/
def uniqFirstAux {α : Type} [DecidableEq α] (seen : List α) : List α → List α
  | [] => []
  | x :: xs => if x ∈ seen then uniqFirstAux seen xs else x :: uniqFirstAux (x :: seen) xs

def uniqFirst {α : Type} [DecidableEq α] (l : List α) : List α := uniqFirstAux [] l

/-- Stable insertion used by the stable sort: x is placed after every
element that compares less-or-equal to it. -/
def insertLe {α : Type} (le : α → α → Bool) (x : α) : List α → List α
  | [] => [x]
  | y :: ys => if le y x then y :: insertLe le x ys else x :: y :: ys

/-- Stable sort by a boolean total preorder: the model of
Array.prototype.sort with a consistent comparator (stable per the JS
specification). -/
def sortLe {α : Type} (le : α → α → Bool) (l : List α) : List α :=
  l.foldl (fun acc x => insertLe le x acc) []

-- ------------------------------------------------------------------
-- URL model
-- ------------------------------------------------------------------

structure Url where
  scheme : Str
  username : Str
  password : Str
  host : Str
  port : Str
  pathname : Str
  search : Str
deriving DecidableEq, Repr, Inhabited

/-- origin of a URL: scheme://host[:port]  (model of URL.origin). -/
def Url.origin (u : Url) : Str :=
  u.scheme ++ str "://" ++ u.host ++ (if u.port = [] then [] else ':' :: u.port)

/-- Serialisation used as fetch key and stored artifact URL (model of
URL.toString for the credential-free URLs the pipeline fetches). -/
def urlToString (u : Url) : Str := u.origin ++ u.pathname ++ u.search

/-- sameOrigin from the source. -/
def sameOrigin (a b : Url) : Bool := a.origin = b.origin

/-- Split a list at the first occurrence of a separator character:
(before, after-with-separator-removed); none if absent. -/
def splitAtChar (c : Char) : Str → Option (Str × Str)
  | [] => none
  | x :: xs =>
    if x = c then some ([], xs)
    else (splitAtChar c xs).map (fun p => (x :: p.1, p.2))

/-- Take until any of the given characters (exclusive). -/
def takeUntilAny (stop : List Char) (s : Str) : Str :=
  s.takeWhile (fun c => ¬ c ∈ stop)

def dropUntilAny (stop : List Char) (s : Str) : Str :=
  s.dropWhile (fun c => ¬ c ∈ stop)

/-- Split host[:port] at the last colon. -/
def splitHostPort (s : Str) : Str × Str :=
  match splitAtChar ':' s.reverse with
  | some (rp, rh) => (rh.reverse, rp.reverse)
  | none => (s, [])

/-- Parse an absolute URL of the subset the pipeline manipulates
(model of the WHATWG new URL(absolute)).  Fragments are dropped; the
authority is split into credentials, lowercased host and port; a
missing path becomes the root path. -/
def parseUrl (s : Str) : Option Url :=
  let s := takeUntilAny ['#'] s
  match findSub s (str "://") with
  | none => none
  | some i =>
    let scheme := lowerStr (s.take i)
    let rest := s.drop (i + 3)
    if scheme = [] then none
    else
      let authority := takeUntilAny ['/', '?'] rest
      let tail := rest.drop authority.length
      let (userinfo, hostport) :=
        match splitAtChar '@' authority with
        | some (ui, hp) => (ui, hp)
        | none => ([], authority)
      let (user, pass) :=
        match splitAtChar ':' userinfo with
        | some (u, p) => (u, p)
        | none => (userinfo, [])
      let (host, port) :=
        if hostport.contains ':' then splitHostPort hostport else (hostport, [])
      if host = [] then none
      else if ¬ (port.all Char.isDigit) then none
      else
        let pathname := takeUntilAny ['?'] tail
        let search := tail.drop pathname.length
        some {
          scheme := scheme
          username := user
          password := pass
          host := lowerStr host
          port := port
          pathname := if pathname = [] then str "/" else pathname
          search := search }

/-- normalizeToOrigin from the source: trim, default the scheme to
https, parse, accept only http/https, reduce to the origin URL. -/
def normalizeToOrigin (inputUrl : Str) : Option Url :=
  let u := trimStr inputUrl
  let u :=
    if (str "http://").isPrefixOf (lowerStr u) ∨ (str "https://").isPrefixOf (lowerStr u)
    then u else str "https://" ++ u
  match parseUrl u with
  | none => none
  | some url =>
    if url.scheme ≠ str "http" ∧ url.scheme ≠ str "https" then none
    else some { url with pathname := str "/", search := [] }

/-- basicSsrfGuards from the source; returns the error message on rejection. -/
def basicSsrfGuards (url : Url) : Option Str :=
  if url.username ≠ [] ∨ url.password ≠ [] then
    some (str "INVALID_URL: credentials in URL not allowed")
  else
    let host := lowerStr url.host
    if host = str "localhost" ∨ host = str "127.0.0.1" ∨ host = str "0.0.0.0" ∨ host = str "::1" then
      some (str "INVALID_URL: localhost is not allowed")
    else if endsWithStr host (str ".local") ∨ endsWithStr host (str ".internal") then
      some (str "INVALID_URL: internal hostnames are not allowed")
    else none

/-- Resolution of a candidate href against a base URL (model of
new URL(candidate, base) for the forms the crawler feeds it:
absolute URLs, scheme-relative, root-relative, bare-relative paths,
query-only).  Fragments are dropped by every caller. -/
def resolveUrl (cand : Str) (base : Url) : Option Url :=
  let cand := takeUntilAny ['#'] cand
  if (findSub cand (str "://")).isSome then parseUrl cand
  else if (str "//").isPrefixOf cand then parseUrl (base.scheme ++ str ":" ++ cand)
  else if (str "/").isPrefixOf cand then
    let pathname := takeUntilAny ['?'] cand
    some { base with pathname := pathname, search := cand.drop pathname.length }
  else if (str "?").isPrefixOf cand then
    some { base with search := cand }
  else if cand = [] then
    some { base with search := [] }
  else
    let dir := (base.pathname.reverse.dropWhile (fun c => c ≠ '/')).reverse
    let pathname := dir ++ takeUntilAny ['?'] cand
    some { base with pathname := pathname, search := cand.drop (takeUntilAny ['?'] cand).length }

/-- makeAbsoluteUrl from the source: resolve against the base, keep only
http/https, clear the fragment. -/
def makeAbsoluteUrl (candidate : Str) (base : Url) : Option Url :=
  match resolveUrl candidate base with
  | none => none
  | some u =>
    if u.scheme ≠ str "http" ∧ u.scheme ≠ str "https" then none else some u

-- ------------------------------------------------------------------
-- Fetch layer
-- ------------------------------------------------------------------

def MAX_HTML_CHARS : Nat := 120000
def MAX_TEXT_CHARS : Nat := 120000

/-- truncate from the source: slice to maxChars and append an ellipsis
marker when the input is longer. -/
def truncate (s : Str) (maxChars : Nat) : Str :=
  if s.length ≤ maxChars then s else s.take maxChars ++ str "..."

def isWordChar (c : Char) : Bool := c.isAlpha ∨ c.isDigit ∨ c = '_'

/-- First index at which pat occurs in s and, when boundary is set, the
character following the occurrence is not a word character (the regex
word-boundary after the pattern). -/
def findPatB (s pat : Str) (boundary : Bool) : Option Nat :=
  if pat.isPrefixOf s && (!boundary || (match s.drop pat.length with
      | [] => true
      | c :: _ => !isWordChar c)) then some 0
  else
    match s with
    | [] => none
    | _ :: t => (findPatB t pat boundary).map (· + 1)

/-- One global-regex removal pass for a lazily-delimited block
(comments, script blocks, style blocks).  openPat and closePat are
lower-case; matching is done on the lower-cased text, splicing the
original (the source regexes carry the i flag or are case-free). -/
def removeBlocks (openPat closePat : Str) (boundary : Bool) : Nat → Str → Str
  | 0, s => s
  | fuel + 1, s =>
    match findPatB (lowerStr s) openPat boundary with
    | none => s
    | some i =>
      let afterOpen := s.drop (i + openPat.length)
      match findSub (lowerStr afterOpen) closePat with
      | none => s
      | some j =>
        s.take i ++ removeBlocks openPat closePat boundary fuel (afterOpen.drop (j + closePat.length))

/-- stripScriptsStylesComments from the source. -/
def stripScriptsStylesComments (html : Str) : Str :=
  let a := removeBlocks (str "<!--") (str "-->") false (html.length + 1) html
  let b := removeBlocks (str "<script") (str "</script>") true (a.length + 1) a
  removeBlocks (str "<style") (str "</style>") true (b.length + 1) b

/-- isProbablyHtml from the source. -/
def isProbablyHtml (contentType : Str) : Bool :=
  if contentType = [] then false
  else containsSub contentType (str "text/html") ∨ containsSub contentType (str "application/xhtml+xml")

def lowerHeaders (hs : List (Str × Str)) : List (Str × Str) :=
  hs.map (fun kv => (lowerStr kv.1, kv.2))

def headerGet (hs : List (Str × Str)) (k : Str) : Option Str :=
  (hs.find? (fun kv => decide (kv.1 = k))).map (·.2)

structure ArtifactHtml where
  url : Str
  final_url : Str
  status : Nat
  headers : List (Str × Str)
  html : Option Str
deriving DecidableEq, Repr, Inhabited

structure ArtifactText where
  url : Str
  final_url : Str
  status : Nat
  headers : List (Str × Str)
  text : Option Str
deriving DecidableEq, Repr, Inhabited

/-- A network response: status, raw headers, body, and the platform's
final URL after redirects (response.url; none models an empty value). -/
structure FetchResp where
  status : Nat
  headers : List (Str × Str)
  body : Str
  resUrl : Option Url

/-- The network environment: a pure map from request URL strings to
responses; none models a fetch or timeout failure (the catch branch). -/
def World : Type := Str → Option FetchResp

structure HtmlFetch where
  artifact : ArtifactHtml
  constraint : Option Str
  /-- structured view of the final URL the source stores as final_url
  and later re-parses as the crawl base -/
  finalUrl : Url

structure TextFetch where
  artifact : ArtifactText
  constraint : Option Str

/-- fetchHtmlArtifact from the source. -/
def fetchHtmlArtifact (world : World) (url : Url) : HtmlFetch :=
  match world (urlToString url) with
  | none =>
    { artifact := { url := urlToString url, final_url := urlToString url,
                    status := 0, headers := [], html := none }
      constraint := some (str "fetch_failed"), finalUrl := url }
  | some res =>
    let finalU := res.resUrl.getD url
    let headers := lowerHeaders res.headers
    let contentType := (headerGet headers (str "content-type")).getD []
    let html : Option Str :=
      if 200 ≤ res.status ∧ res.status < 400 then
        some (truncate (stripScriptsStylesComments res.body) MAX_HTML_CHARS)
      else none
    if ¬ isProbablyHtml contentType then
      { artifact := { url := urlToString url, final_url := urlToString finalU,
                      status := res.status, headers := headers, html := none }
        constraint := some (str "non_html_homepage_or_page"), finalUrl := finalU }
    else
      { artifact := { url := urlToString url, final_url := urlToString finalU,
                      status := res.status, headers := headers, html := html }
        constraint := none, finalUrl := finalU }

/-- fetchTextArtifact from the source. -/
def fetchTextArtifact (world : World) (url : Url) : TextFetch :=
  match world (urlToString url) with
  | none =>
    { artifact := { url := urlToString url, final_url := urlToString url,
                    status := 0, headers := [], text := none }
      constraint := some (str "fetch_failed") }
  | some res =>
    let finalU := res.resUrl.getD url
    let headers := lowerHeaders res.headers
    let text : Option Str :=
      if 200 ≤ res.status ∧ res.status < 400 then
        some (truncate res.body MAX_TEXT_CHARS)
      else none
    { artifact := { url := urlToString url, final_url := urlToString finalU,
                    status := res.status, headers := headers, text := text }
      constraint := none }

-- ------------------------------------------------------------------
-- Link extraction (anchor hrefs and sitemap locs)
-- ------------------------------------------------------------------

/-- Attempt to read, at the current position, the regex fragment
href-whitespace-equals-whitespace-quote-value-quote (the value is a
nonempty run free of both quote characters; the closing quote may
differ from the opening one, as in the source pattern).  lw and og are
the lower-cased and original text at the same position; the value is
captured from the original text.  Returns the value and both remainders
after the closing quote. -/
def tryHrefValue (lw og : Str) : Option (Str × Str × Str) :=
  let ws1 := (lw.takeWhile isJsWs).length
  let lw1 := lw.drop ws1
  match lw1 with
  | '=' :: lw2 =>
    let ws2 := (lw2.takeWhile isJsWs).length
    let lw3 := lw2.drop ws2
    match lw3 with
    | q :: lw4 =>
      if q = '"' ∨ q = '\'' then
        let og4 := og.drop (ws1 + 1 + ws2 + 1)
        let v := og4.takeWhile (fun c => ¬ (c = '"' ∨ c = '\''))
        if v = [] then none
        else
          match lw4.drop v.length with
          | [] => none
          | _ :: lw5 => some (v, lw5, og4.drop (v.length + 1))
      else none
    | [] => none
  | _ => none

/-- Scan the inside of an anchor tag for a word-bounded href attribute
with a quoted value, mirroring the backtracking of the source regex:
the scan stops at the first angle-bracket close, and a successful match
is completed by consuming through the next close bracket. -/
def hrefInTag : Nat → Char → Str → Str → Option (Str × Str × Str)
  | 0, _, _, _ => none
  | fuel + 1, prev, lw, og =>
    match lw, og with
    | [], _ => none
    | c :: lt, _ :: ot =>
      if c = '>' then none
      else if (!isWordChar prev) && (str "href").isPrefixOf lw then
        match tryHrefValue (lw.drop 4) (og.drop 4) with
        | some (v, lw2, og2) =>
          match findSub lw2 (str ">") with
          | none => none
          | some j => some (v, lw2.drop (j + 1), og2.drop (j + 1))
        | none => hrefInTag fuel c lt ot
      else hrefInTag fuel c lt ot
    | _, _ => none

/-- All href attribute values of anchor tags in document order (model
of the global anchor regex of extractHomepageLinks). -/
def anchorsAux : Nat → Str → Str → List Str
  | 0, _, _ => []
  | fuel + 1, lw, og =>
    match lw, og with
    | [], _ => []
    | _ :: lt, _ :: ot =>
      if (str "<a").isPrefixOf lw && (match lw.drop 2 with
          | [] => true
          | c :: _ => !isWordChar c) then
        match hrefInTag (lw.length + 1) 'a' (lw.drop 2) (og.drop 2) with
        | some (v, lw2, og2) => v :: anchorsAux fuel lw2 og2
        | none => anchorsAux fuel lt ot
      else anchorsAux fuel lt ot
    | _, _ => []

def extractHrefs (html : Str) : List Str :=
  anchorsAux (html.length + 1) (lowerStr html) html

/-- File extensions dropped by extractHomepageLinks. -/
def hasBadExt (p : Str) : Bool :=
  [str ".pdf", str ".jpg", str ".jpeg", str ".png", str ".gif",
   str ".webp", str ".svg", str ".zip"].any (fun e => endsWithStr p e)

/-- extractHomepageLinks from the source.  De-duplication is by URL
value; the source keys its seen-set by the canonical serialisation,
which coincides on this model. -/
def extractHomepageLinks (html : Str) (base : Url) : List Url :=
  let urls := (extractHrefs html).filterMap (fun raw =>
    let href := trimStr raw
    if href = [] then none
    else if (str "mailto:").isPrefixOf href ∨ (str "tel:").isPrefixOf href
         ∨ (str "javascript:").isPrefixOf href then none
    else
      match makeAbsoluteUrl href base with
      | none => none
      | some abs =>
        if ¬ sameOrigin abs base then none
        else if hasBadExt (lowerStr abs.pathname) then none
        else some abs)
  uniqFirst urls

/-- All loc entries of a sitemap in document order (model of the global
loc regex of extractSitemapLocs: a nonempty run free of whitespace and
open brackets, framed by optional whitespace inside the loc element). -/
def locsAux : Nat → Str → Str → List Str
  | 0, _, _ => []
  | fuel + 1, lw, og =>
    match lw, og with
    | [], _ => []
    | _ :: lt, _ :: ot =>
      if (str "<loc>").isPrefixOf lw then
        let lw1 := lw.drop 5
        let og1 := og.drop 5
        let ws1 := (lw1.takeWhile isJsWs).length
        let v := (og1.drop ws1).takeWhile (fun c => ¬ (c = '<' ∨ isJsWs c))
        if v = [] then locsAux fuel lt ot
        else
          let lw2 := lw1.drop (ws1 + v.length)
          let ws2 := (lw2.takeWhile isJsWs).length
          if (str "</loc>").isPrefixOf (lw2.drop ws2) then
            v :: locsAux fuel (lw2.drop (ws2 + 6)) (og1.drop (ws1 + v.length + ws2 + 6))
          else locsAux fuel lt ot
      else locsAux fuel lt ot
    | _, _ => []

/-- extractSitemapLocs from the source. -/
def extractSitemapLocs (xmlText : Str) (base : Url) : List Url :=
  let locs := (locsAux (xmlText.length + 1) (lowerStr xmlText) xmlText).filterMap (fun raw =>
    let v := trimStr raw
    if v = [] then none
    else
      match makeAbsoluteUrl v base with
      | none => none
      | some abs => if ¬ sameOrigin abs base then none else some abs)
  uniqFirst locs

-- ------------------------------------------------------------------
-- Page selection
-- ------------------------------------------------------------------

def priorityKeywords : List Str :=
  [str "contact", str "about", str "services", str "service",
   str "pricing", str "book", str "audit", str "diagnostic"]

def kwScoreAux (i : Nat) : List Str → Str → Nat
  | [], _ => 999
  | k :: ks, path => if containsSub path k then i else kwScoreAux (i + 1) ks path

/-- Score of a lowered pathname: the index of the first priority
keyword it contains, 999 if none. -/
def scoreOf (path : Str) : Nat := kwScoreAux 0 priorityKeywords path

/-- Decidable lexicographic less-or-equal on character lists, the model
of the localeCompare tie-break for the paths the selector compares. -/
def strLeAux : Str → Str → Bool
  | [], _ => true
  | _ :: _, [] => false
  | a :: as, b :: bs => if a = b then strLeAux as bs else decide (a < b)

/-- The sort comparator of pickPriorityNavPages as a total preorder:
score, then lowered-path length, then lexicographic lowered path. -/
def navLe (a b : Url) : Bool :=
  let pa := lowerStr a.pathname
  let pb := lowerStr b.pathname
  let sa := scoreOf pa
  let sb := scoreOf pb
  if sa ≠ sb then decide (sa < sb)
  else if pa.length ≠ pb.length then decide (pa.length < pb.length)
  else strLeAux pa pb

/-- The picking loop of pickPriorityNavPages: skip already-seen URLs,
record-and-skip the root path, stop once the limit is reached (the
source pushes, then breaks when the picked count reaches the limit). -/
def pickNavAux : List Url → List Url → Nat → List Url
  | [], _, _ => []
  | u :: rest, seen, limit =>
    if u ∈ seen then pickNavAux rest seen limit
    else if u.pathname = str "/" then pickNavAux rest (u :: seen) limit
    else if limit ≤ 1 then [u]
    else u :: pickNavAux rest (u :: seen) (limit - 1)

/-- pickPriorityNavPages from the source. -/
def pickPriorityNavPages (links : List Url) (limit : Nat) : List Url :=
  pickNavAux (sortLe navLe links) [] limit

-- ------------------------------------------------------------------
-- Analyzer data model
-- ------------------------------------------------------------------

inductive RiskLevel | RED | AMBER | GREEN
deriving DecidableEq, Repr, Inhabited

inductive Severity | P0 | P1 | P2 | P3
deriving DecidableEq, Repr, Inhabited

inductive Trajectory | UP | STABLE | DOWN
deriving DecidableEq, Repr, Inhabited

structure Baseline where
  risk_level : RiskLevel
  scan_date : Str
  p0 : Nat
  p1 : Nat
  p2 : Nat
  p3 : Nat
deriving DecidableEq, Repr, Inhabited

/-- ScanInput from the source; the artifact slots mirror the optional
fields of the artifacts object (the source reads extra_pages with a
default of the empty array). -/
structure ScanInput where
  domain : Str
  scan_date : Str
  baseline : Option Baseline
  homepage : Option ArtifactHtml
  robots_txt : Option ArtifactText
  sitemap_xml : Option ArtifactText
  extra_pages : List ArtifactHtml
  constraints : List Str
deriving DecidableEq, Repr, Inhabited

structure Finding where
  severity : Severity
  category : Str
  finding : Str
  evidenceUrl : Str
  snippet : Str
  why : Str
  verify : Str
deriving DecidableEq, Repr, Inhabited

/-- The root-cause map: an insertion-ordered association list, as a JS
Map.  add from the source: first writer per key wins. -/
def addRC (m : List (Str × Finding)) (key : Str) (f : Finding) : List (Str × Finding) :=
  if m.any (fun e => decide (e.1 = key)) then m else m ++ [(key, f)]

/-- A guarded add (an if-statement around add in the source). -/
def condAdd (c : Bool) (m : List (Str × Finding)) (key : Str) (f : Finding) :
    List (Str × Finding) :=
  if c then addRC m key f else m

/-- An add guarded by an optional match payload used in the finding. -/
def optAdd {α : Type} (o : Option α) (m : List (Str × Finding)) (key : Str)
    (mk : α → Finding) : List (Str × Finding) :=
  match o with
  | some a => addRC m key (mk a)
  | none => m

-- ------------------------------------------------------------------
-- Rule predicates (models of the analyzer regexes)
-- ------------------------------------------------------------------

/-- true on characters the multiline regex anchor treats as a line
terminator. -/
def isLineTerm (c : Char) : Bool := c = '\n' ∨ c = '\r'

/-- Match of the fragment disallow-colon, optional whitespace, slash,
optional whitespace, multiline end-anchor, at the head of the lowered
text: after the slash the anchor must be reachable through whitespace
(end of text, or a line terminator inside the whitespace run). -/
def disallowAtHead (l : Str) : Bool :=
  if (str "disallow:").isPrefixOf l then
    let a := (l.drop 9).dropWhile isJsWs
    match a with
    | '/' :: r =>
      let run := r.takeWhile isJsWs
      decide (run.length = r.length) || run.any isLineTerm
    | _ => false
  else false

/-- Search version of disallowAtHead over every position (the regex
test with the global search semantics of RegExp.test). -/
def disallowAllTest : Str → Bool
  | [] => false
  | l@(_ :: t) => disallowAtHead l || disallowAllTest t

/-- user-agent-colon, optional whitespace, star, at the head. -/
def userAgentStarAtHead (l : Str) : Bool :=
  if (str "user-agent:").isPrefixOf l then
    match (l.drop 11).dropWhile isJsWs with
    | '*' :: _ => true
    | _ => false
  else false

def userAgentStarTest : Str → Bool
  | [] => false
  | l@(_ :: t) => userAgentStarAtHead l || userAgentStarTest t

/-- The robots disallow-all rule condition from the source: a truthy
text that passes both regex tests (both case-insensitive, so evaluated
on the lowered text). -/
def robotsDisallowAllCond (robots : Option ArtifactText) : Bool :=
  match robots with
  | none => false
  | some r =>
    match r.text with
    | none => false
    | some t => t ≠ [] && disallowAllTest (lowerStr t) && userAgentStarTest (lowerStr t)

/-- Length of a match of disallow-colon, whitespace, slash, rest-of-line
at the head of the lowered text (for the robots evidence snippet). -/
def disallowSnippetLenAt (l : Str) : Option Nat :=
  if (str "disallow:").isPrefixOf l then
    let w := ((l.drop 9).takeWhile isJsWs).length
    match l.drop (9 + w) with
    | '/' :: r => some (9 + w + 1 + (r.takeWhile (fun c => ¬ isLineTerm c)).length)
    | _ => none
  else none

/-- First position (and match length) where f matches, scanning left to
right - the first-match semantics of String.prototype.match. -/
def scanFirst (f : Str → Option Nat) : Str → Option (Nat × Nat)
  | [] => (f []).map (fun n => (0, n))
  | l@(_ :: t) =>
    match f l with
    | some n => some (0, n)
    | none => (scanFirst f t).map (fun p => (p.1 + 1, p.2))

/-- Length of a match of the robots snippet regex (user-agent star,
lazy filler, disallow slash, rest of line) at the head of the lowered
text. -/
def uaSnippetLenAt (l : Str) : Option Nat :=
  if (str "user-agent:").isPrefixOf l then
    let w := ((l.drop 11).takeWhile isJsWs).length
    match l.drop (11 + w) with
    | '*' :: r =>
      (scanFirst disallowSnippetLenAt r).map (fun p => 11 + w + 1 + p.1 + p.2)
    | _ => none
  else none

/-- The matched substring of the robots snippet regex, taken from the
original text. -/
def robotsSnippetRaw (text : Str) : Option Str :=
  (scanFirst uaSnippetLenAt (lowerStr text)).map (fun p => (text.drop p.1).take p.2)

def robotsSnippet (text : Str) : Str :=
  truncate ((robotsSnippetRaw text).getD (str "User-agent: * / Disallow: /")) 200

/-- p.final_url or p.url (JS falsy fallback on the empty string). -/
def pageUrlStr (p : ArtifactHtml) : Str := if p.final_url = [] then p.url else p.final_url

/-- name-equals-quote-robots-quote at the head of the lowered text
(each quote independently single or double). -/
def nameRobotsAtHead (l : Str) : Bool :=
  if (str "name=").isPrefixOf l then
    match l.drop 5 with
    | q :: r =>
      (q = '"' ∨ q = '\'') && (str "robots").isPrefixOf r &&
        (match r.drop 6 with
         | q2 :: _ => (q2 = '"' ∨ q2 = '\'' : Bool)
         | [] => false)
    | [] => false
  else false

def anyPos (f : Str → Bool) : Str → Bool
  | [] => f []
  | l@(_ :: t) => f l || anyPos f t

/-- Length of the first meta-robots tag match at the head of the
lowered text: meta-open, a nonempty close-bracket-free run containing
the name-robots attribute, through the first close bracket. -/
def metaTagLenAt (l : Str) : Option Nat :=
  if (str "<meta").isPrefixOf l then
    let rest := l.drop 5
    let region := rest.takeWhile (fun c => c ≠ '>')
    if region.length < rest.length ∧ region ≠ [] ∧
        anyPos nameRobotsAtHead (region.drop 1) then
      some (5 + region.length + 1)
    else none
  else none

/-- The first meta-robots tag of the page, as matched by the snippet
regex of the meta rule. -/
def metaTagMatch (html : Str) : Option Str :=
  (scanFirst metaTagLenAt (lowerStr html)).map (fun p => (html.drop p.1).take p.2)

/-- rel-equals-quote-canonical-quote at the head of the lowered text. -/
def relCanonicalAtHead (l : Str) : Bool :=
  if (str "rel=").isPrefixOf l then
    match l.drop 4 with
    | q :: r =>
      (q = '"' ∨ q = '\'') && (str "canonical").isPrefixOf r &&
        (match r.drop 9 with
         | q2 :: _ => (q2 = '"' ∨ q2 = '\'' : Bool)
         | [] => false)
    | [] => false
  else false

/-- Positions (head-truncations) of the region where the canonical
attribute may sit: it must start after at least one character and end
at least one character before the close bracket. -/
def anyPosStrictInside (f : Str → Bool) (attrLen : Nat) (region : Str) : Bool :=
  anyPos (fun suf => f suf && decide (attrLen < suf.length)) (region.drop 1)

/-- Length of the first canonical link tag match at the head of the
lowered text: link-open, a nonempty close-free run, the rel-canonical
attribute, a nonempty close-free run, close bracket. -/
def canonTagLenAt (l : Str) : Option Nat :=
  if (str "<link").isPrefixOf l then
    let rest := l.drop 5
    let region := rest.takeWhile (fun c => c ≠ '>')
    if region.length < rest.length ∧ region ≠ [] ∧
        anyPosStrictInside relCanonicalAtHead 11 region then
      some (5 + region.length + 1)
    else none
  else none

/-- The first canonical link tag of the page, from the original text. -/
def canonTagMatch (html : Str) : Option Str :=
  (scanFirst canonTagLenAt (lowerStr html)).map (fun p => (html.drop p.1).take p.2)

/-- Length of a match of href-equals-quoted-value at the head of the
lowered text, together with the offsets of the captured value. -/
def hrefCaptureAt (l : Str) : Option Nat :=
  if (str "href=").isPrefixOf l then
    match l.drop 5 with
    | q :: r =>
      if (q = '"' ∨ q = '\'') then
        let v := r.takeWhile (fun c => ¬ (c = '"' ∨ c = '\''))
        if v = [] then none
        else match r.drop v.length with
          | _ :: _ => some v.length
          | [] => none
      else none
    | [] => none
  else none

/-- The captured href value of the first href-equals-quote match inside
a tag string, from the original text. -/
def hrefValueOf (tag : Str) : Option Str :=
  (scanFirst hrefCaptureAt (lowerStr tag)).map (fun p => (tag.drop (p.1 + 6)).take p.2)

/-- Presence of a title element: title-open somewhere, title-close
somewhere after it (case-insensitive). -/
def hasTitleTag (html : Str) : Bool :=
  match findSub (lowerStr html) (str "<title>") with
  | none => false
  | some i => containsSub ((lowerStr html).drop (i + 7)) (str "</title>")

/-- The trimmed body of the first title element, none when absent
(model of the title-capture regex followed by trim). -/
def titleOf (html : Str) : Option Str :=
  match findSub (lowerStr html) (str "<title>") with
  | none => none
  | some i =>
    match findSub ((lowerStr html).drop (i + 7)) (str "</title>") with
    | none => none
    | some j => some (trimStr (((html.drop (i + 7)).take j)))

-- ------------------------------------------------------------------
-- Analyzer rules
-- ------------------------------------------------------------------

/-- The canonical off-domain rule: returns the matched link tag when it
fires on the page (the add uses the tag as evidence snippet).  URL
construction failures are swallowed as in the source try block. -/
def canonicalOffdomain (p : ArtifactHtml) : Option Str :=
  let html := p.html.getD []
  match canonTagMatch html with
  | none => none
  | some canon =>
    match hrefValueOf canon with
    | none => none
    | some canonHref =>
      match parseUrl (pageUrlStr p) with
      | none => none
      | some pu =>
        match resolveUrl canonHref pu with
        | none => none
        | some cu =>
          if cu.host ≠ [] ∧ pu.host ≠ [] ∧ cu.host ≠ pu.host then some canon else none

/-- The meta-robots rule condition from the source: the lower-cased
page HTML contains the literal double-quoted name-robots attribute text
somewhere and the text noindex somewhere (two independent substring
tests). -/
def metaRobotsCond (p : ArtifactHtml) : Bool :=
  containsSub (lowerStr (p.html.getD [])) (str "name=\"robots\"") &&
    containsSub (lowerStr (p.html.getD [])) (str "noindex")

/-- The per-page rule block of analyzeArtifacts, in source order:
x-robots noindex, meta robots noindex, canonical off-domain, missing
title. -/
def pageStep (m : List (Str × Finding)) (p : ArtifactHtml) : List (Str × Finding) :=
  let url := pageUrlStr p
  let html := p.html.getD []
  let xRobotsRaw := (headerGet p.headers (str "x-robots-tag")).getD []
  let m1 :=
    condAdd (containsSub (lowerStr xRobotsRaw) (str "noindex")) m (str "X_ROBOTS_NOINDEX")
      { severity := .P0, category := str "Indexation Kill Switch",
        finding := str "x-robots-tag noindex present", evidenceUrl := url,
        snippet := truncate (str "x-robots-tag: " ++ xRobotsRaw) 200,
        why := str "noindex prevents the page from being indexed.",
        verify := str "Check response headers for x-robots-tag containing noindex." }
  let m2 :=
    condAdd (metaRobotsCond p) m1 (str "META_ROBOTS_NOINDEX")
      { severity := .P0, category := str "Indexation Kill Switch",
        finding := str "meta robots noindex present", evidenceUrl := url,
        snippet := truncate ((metaTagMatch html).getD (str "<meta name='robots' ...>")) 200,
        why := str "noindex prevents indexing for the page.",
        verify := str "View page source and locate meta name='robots' containing noindex." }
  let m3 :=
    optAdd (canonicalOffdomain p) m2 (str "CANONICAL_OFFDOMAIN") (fun canon =>
      { severity := .P0, category := str "Indexation Kill Switch",
        finding := str "canonical points to a different domain", evidenceUrl := url,
        snippet := truncate canon 200,
        why := str "Off-domain canonicals can transfer indexing signals away from your site.",
        verify := str "View source and confirm canonical hostname matches the page hostname." })
  condAdd (!hasTitleTag html) m3 (str "MISSING_TITLE")
    { severity := .P2, category := str "Moderate Drag",
      finding := str "missing <title> tag", evidenceUrl := url,
      snippet := str "No <title> found in HTML.",
      why := str "Titles are a primary relevance + CTR signal; missing titles reduce clarity.",
      verify := str "View source and confirm whether a <title> exists in <head>." }

/-- The title map: insertion-ordered association of exact trimmed title
bodies to the urls carrying them. -/
def titlesAdd (m : List (Str × List Str)) (t u : Str) : List (Str × List Str) :=
  if m.any (fun e => decide (e.1 = t)) then
    m.map (fun e => if e.1 = t then (e.1, e.2 ++ [u]) else e)
  else m ++ [(t, [u])]

def titlesOf (pages : List ArtifactHtml) : List (Str × List Str) :=
  pages.foldl (fun m p =>
    match p.html with
    | none => m
    | some h =>
      match titleOf h with
      | none => m
      | some t => if t = [] then m else titlesAdd m t (pageUrlStr p)) []

/-- The duplicate-titles pass: the first title shared by at least two
pages adds one finding; the loop then breaks. -/
def dupTitlesStep (m : List (Str × Finding)) (titles : List (Str × List Str)) :
    List (Str × Finding) :=
  optAdd (titles.find? (fun e => decide (2 ≤ e.2.length))) m (str "DUP_TITLES") (fun e =>
    { severity := .P2, category := str "Moderate Drag",
      finding := str "duplicate <title> across multiple pages",
      evidenceUrl := e.2.headI,
      snippet := truncate (str "<title>" ++ e.1 ++ str "</title>") 200,
      why := str "Duplicate titles dilute intent targeting and reduce snippet differentiation.",
      verify := str "Check page sources and compare <title> across affected URLs." })

/-- The page list the analyzer iterates: homepage then extra pages
(undefined entries filtered, as by the source filter on truthiness). -/
def pagesOf (input : ScanInput) : List ArtifactHtml :=
  input.homepage.toList ++ input.extra_pages

/-- The root-cause findings of analyzeArtifacts, in insertion order. -/
def findingsOf (input : ScanInput) : List (Str × Finding) :=
  let m1 :=
    condAdd (robotsDisallowAllCond input.robots_txt) [] (str "ROBOTS_DISALLOW_ALL")
      { severity := .P0, category := str "Indexation Kill Switch",
        finding := str "robots.txt appears to disallow all crawling",
        evidenceUrl := str "robots.txt",
        snippet := robotsSnippet (((input.robots_txt.bind (·.text))).getD []),
        why := str "If bots can’t crawl, pages won’t be indexed or refreshed reliably.",
        verify := str "Open /robots.txt and confirm User-agent:* includes Disallow:/" }
  let m2 := (pagesOf input).foldl pageStep m1
  dupTitlesStep m2 (titlesOf (pagesOf input))

-- ------------------------------------------------------------------
-- Rollup, proof selection, assembly of the analysis
-- ------------------------------------------------------------------

structure Counts where
  p0 : Nat
  p1 : Nat
  p2 : Nat
  p3 : Nat
deriving DecidableEq, Repr, Inhabited

/-- One step of the severity-counting loop of analyzeArtifacts. -/
def countStep (c : Counts) (e : Str × Finding) : Counts :=
  match e.2.severity with
  | .P0 => { c with p0 := c.p0 + 1 }
  | .P1 => { c with p1 := c.p1 + 1 }
  | .P2 => { c with p2 := c.p2 + 1 }
  | .P3 => { c with p3 := c.p3 + 1 }

/-- The severity-counting loop of analyzeArtifacts. -/
def countsOf (fs : List (Str × Finding)) : Counts :=
  fs.foldl countStep ⟨0, 0, 0, 0⟩

/-- The risk-level thresholds of analyzeArtifacts. -/
def riskOf (c : Counts) : RiskLevel :=
  if 1 ≤ c.p0 ∨ 3 ≤ c.p1 then .RED
  else if c.p0 = 0 ∧ ((1 ≤ c.p1 ∧ c.p1 ≤ 2) ∨ 5 ≤ c.p2) then .AMBER
  else .GREEN

def rankSev : Severity → Nat
  | .P0 => 0
  | .P1 => 1
  | .P2 => 2
  | .P3 => 3

/-- The severity-ordered findings (stable sort by rank). -/
def orderedOf (fs : List (Str × Finding)) : List (Str × Finding) :=
  sortLe (fun a b => decide (rankSev a.2.severity ≤ rankSev b.2.severity)) fs

/-- The proof pick: first P0 in the ordered list, else first P1, else
first P2 (a P3-only list selects nothing). -/
def proofPickOf (fs : List (Str × Finding)) : Option (Str × Finding) :=
  let ord := orderedOf fs
  (ord.find? (fun e => decide (e.2.severity = .P0))).orElse (fun _ =>
    (ord.find? (fun e => decide (e.2.severity = .P1))).orElse (fun _ =>
      ord.find? (fun e => decide (e.2.severity = .P2))))

structure ProofOut where
  severity : Severity
  category : Str
  finding : Str
  evidenceUrl : Str
  snippet : Str
  why_it_suppresses : Str
  how_to_verify : Str
deriving DecidableEq, Repr, Inhabited

/-- The canned proof used when nothing is picked. -/
def cannedProof (domain : Str) : ProofOut :=
  { severity := .P2, category := str "Moderate Drag",
    finding := str "No clear suppressors detected in limited public signals",
    evidenceUrl := domain,
    snippet := str "No P0/P1 signals found in fetched artifacts.",
    why_it_suppresses := str "With limited pages, some suppressors may be hidden or non-public.",
    how_to_verify := str "Confirm robots/canonicals/noindex via source + headers, or run paid audit." }

/-- Rendering of the picked finding as the external proof object, with
the P3-to-P2 severity clamp of the source. -/
def renderProof (e : Str × Finding) : ProofOut :=
  { severity := if e.2.severity = .P3 then .P2 else e.2.severity,
    category := e.2.category,
    finding := truncate e.2.finding 100,
    evidenceUrl := e.2.evidenceUrl,
    snippet := truncate e.2.snippet 200,
    why_it_suppresses := truncate e.2.why 150,
    how_to_verify := truncate e.2.verify 150 }

def proofOf (input : ScanInput) : ProofOut :=
  match proofPickOf (findingsOf input) with
  | some e => renderProof e
  | none => cannedProof input.domain

/-- The trajectory chain of analyzeArtifacts. -/
def trajectoryOf (baseline : Option Baseline) (to_ : RiskLevel) : Option Trajectory :=
  match baseline with
  | none => none
  | some b =>
    let from_ := b.risk_level
    if from_ = to_ then some .STABLE
    else if from_ = .RED ∧ to_ = .AMBER then some .DOWN
    else if from_ = .AMBER ∧ to_ = .GREEN then some .DOWN
    else if from_ = .GREEN ∧ to_ = .AMBER then some .UP
    else if from_ = .AMBER ∧ to_ = .RED then some .UP
    else if from_ = .GREEN ∧ to_ = .RED then some .UP
    else some .STABLE

def interpretationOf (risk : RiskLevel) : Str :=
  truncate
    (match risk with
     | .RED => str "High suppression risk detected from public crawl/index signals."
     | .AMBER => str "Some suppression signals detected; investigate before scaling content/ads."
     | .GREEN => str "No major kill-switch signals detected in limited public signals.") 150

structure Analysis where
  risk_level : RiskLevel
  trajectory : Option Trajectory
  counts : Counts
  interpretation : Str
  proof : ProofOut
deriving DecidableEq, Repr

/-- analyzeArtifacts from the source. -/
def analyzeArtifacts (input : ScanInput) : Analysis :=
  let fs := findingsOf input
  let c := countsOf fs
  let risk := riskOf c
  { risk_level := risk
    trajectory := trajectoryOf input.baseline risk
    counts := c
    interpretation := interpretationOf risk
    proof := proofOf input }

-- ------------------------------------------------------------------
-- Security flags
-- ------------------------------------------------------------------

/-- detectSecurityFlags from the source: substring scan of the joined,
lower-cased artifact contents. -/
def detectSecurityFlags (contents : List Str) : List Str :=
  let joined := lowerStr (List.intercalate (str "\n") contents)
  let hasPromptInjection :=
    containsSub joined (str "ignore previous instructions") ||
    containsSub joined (str "you are now") ||
    containsSub joined (str "system:") ||
    containsSub joined (str "assistant:") ||
    containsSub joined (str "human:")
  let hasSchemaMimicry :=
    containsSub joined (str "\"schema_version\"") ||
    containsSub joined (str "output schema") ||
    containsSub joined (str "strict json") ||
    containsSub joined (str "error schema")
  let hasInstructionBlocks :=
    containsSub joined (str "## system prompt") ||
    containsSub joined (str "critical security directive") ||
    containsSub joined (str "analysis rules")
  let flags :=
    (if hasPromptInjection then [str "PROMPT_INJECTION_DETECTED"] else []) ++
    (if hasSchemaMimicry then [str "SCHEMA_MIMICRY_DETECTED"] else []) ++
    (if hasInstructionBlocks then [str "INSTRUCTION_IN_HTML_DETECTED"] else [])
  uniqFirst flags

-- ------------------------------------------------------------------
-- The scan pipeline (handler body after URL validation)
-- ------------------------------------------------------------------

/-- Model of new URL(path, base) for the root-relative standard
locations the pipeline uses. -/
def urlWithPath (base : Url) (p : Str) : Url :=
  { base with pathname := p, search := [] }

def optList {α : Type} : Option α → List α
  | some a => [a]
  | none => []

/-- The intermediate values of one scan, recorded so that invariants
about the fetched URLs and the assembled ScanInput can be stated. -/
structure ScanTrace where
  base : Url
  robotsUrl : Url
  sitemapUrl : Url
  extraUrls : List Url
  homepage : ArtifactHtml
  robots_txt : ArtifactText
  sitemap_xml : ArtifactText
  extra_pages : List ArtifactHtml
  scanInput : ScanInput

/-- The sitemap contribution to the extra pages: with a truthy sitemap
text and a 200-399 status, the first two non-root extracted locations
in document order. -/
def sitemapPicksOf (sitemap_xml : ArtifactText) (base : Url) : List Url :=
  match sitemap_xml.text with
  | some t =>
    if t ≠ [] ∧ 200 ≤ sitemap_xml.status ∧ sitemap_xml.status < 400 then
      ((extractSitemapLocs t base).filter (fun u => decide (u.pathname ≠ str "/"))).take 2
    else []
  | none => []

/-- The homepage-availability test of the handler: status 200-399 and
a truthy stored html (the empty string is falsy in JS). -/
def hasHomepageHtml (homepage : ArtifactHtml) : Bool :=
  (200 ≤ homepage.status && homepage.status < 400) &&
    (match homepage.html with
     | some h => h ≠ []
     | none => false)

/-- The scan body of the handler after the homepage gate, from the
homepage fetch to the assembled ScanInput. -/
def runScanCore (world : World) (originUrl : Url) (scanDate : Str) (baseline : Option Baseline) :
    ScanTrace :=
  let homepageFetch := fetchHtmlArtifact world originUrl
  let homepage := homepageFetch.artifact
  let cons0 : List Str := optList homepageFetch.constraint
  let base := homepageFetch.finalUrl
  (
    let robotsUrl := urlWithPath base (str "/robots.txt")
    let sitemapUrl := urlWithPath base (str "/sitemap.xml")
    let robotsFetch := fetchTextArtifact world robotsUrl
    let sitemapFetch := fetchTextArtifact world sitemapUrl
    let robots_txt := robotsFetch.artifact
    let sitemap_xml := sitemapFetch.artifact
    let cons1 := cons0 ++ optList robotsFetch.constraint ++ optList sitemapFetch.constraint
    let cons2 := cons1 ++
      (if robots_txt.status = 404 ∨ robots_txt.status = 0 then [str "robots_unavailable"] else []) ++
      (if sitemap_xml.status = 404 ∨ sitemap_xml.status = 0 then [str "sitemap_unavailable"] else [])
    let homepageLinks := extractHomepageLinks (homepage.html.getD []) base
    let navPicks := pickPriorityNavPages homepageLinks 3
    let sitemapPicks := sitemapPicksOf sitemap_xml base
    let extraUrls := uniqFirst (navPicks ++ sitemapPicks)
    let extraFetches := extraUrls.map (fetchHtmlArtifact world)
    let extra_pages := extraFetches.map (·.artifact)
    let cons3 := cons2 ++ extraFetches.filterMap (·.constraint)
    let cons4 := cons3 ++
      (if endsWithStr (homepage.html.getD []) (str "...") then [str "truncated_due_to_limits"] else []) ++
      (if extra_pages.any (fun p => endsWithStr (p.html.getD []) (str "...")) then [str "truncated_due_to_limits"] else [])
    let scanInput : ScanInput :=
      { domain := base.origin
        scan_date := scanDate
        baseline := baseline
        homepage := some homepage
        robots_txt := some robots_txt
        sitemap_xml := some sitemap_xml
        extra_pages := extra_pages
        constraints := uniqFirst cons4 }
    { base := base, robotsUrl := robotsUrl, sitemapUrl := sitemapUrl,
      extraUrls := extraUrls, homepage := homepage, robots_txt := robots_txt,
      sitemap_xml := sitemap_xml, extra_pages := extra_pages, scanInput := scanInput })

/-- The scan body of the handler, from the homepage fetch to the
assembled ScanInput; none exactly when the homepage HTML is
unavailable (the INSUFFICIENT_DATA exit). -/
def runScan (world : World) (originUrl : Url) (scanDate : Str) (baseline : Option Baseline) :
    Option ScanTrace :=
  if ¬ hasHomepageHtml (fetchHtmlArtifact world originUrl).artifact then none
  else some (runScanCore world originUrl scanDate baseline)

-- ------------------------------------------------------------------
-- Output assembly and the handler
-- ------------------------------------------------------------------

def STD_CONFIDENCE_NOTE : Str :=
  str "Based on public signals only. Additional suppressors may exist. Full diagnostic with prioritized fixes requires a Growth Blocker Audit."

def STD_CTA_PRIMARY_DESC : Str :=
  str "Complete P0–P3 backlog with evidence, source attribution, priority roadmap, and module readiness assessment."

def STD_CTA_SECONDARY_DESC : Str :=
  str "Ongoing measurement system that makes your marketing provable."

structure ScanMetadata where
  domain : Str
  scan_date : Str
  inputs_used : List Str
  inputs_missing : List Str
  pages_analyzed : Nat
deriving DecidableEq, Repr, Inhabited

structure ResultOut where
  risk_level : RiskLevel
  trajectory : Option Trajectory
  counts : Counts
  interpretation : Str
deriving DecidableEq, Repr, Inhabited

structure Output where
  schema_version : Str
  scan_metadata : ScanMetadata
  result : ResultOut
  proof : ProofOut
  module_readiness_hint : Str
  confidence_note : Str
  security_flags : List Str
  cta_primary_label : Str
  cta_primary_description : Str
  cta_secondary_label : Str
  cta_secondary_description : Str
deriving DecidableEq, Repr

inductive ErrorType | INSUFFICIENT_DATA | FETCH_FAILED | INVALID_URL
deriving DecidableEq, Repr

/-- The error document: the error-true tag and null partial_result of
the source are constants and omitted. -/
structure ErrorOutput where
  schema_version : Str
  error_type : ErrorType
  error_message : Str
deriving DecidableEq, Repr

inductive HandlerResult
  | errorResp (statusCode : Nat) (e : ErrorOutput)
  | okResp (statusCode : Nat) (o : Output)
deriving DecidableEq, Repr

/-- Assembly of the success report from a completed scan. -/
def assembleOutput (tr : ScanTrace) : Output :=
  let scanInput := tr.scanInput
  let security_flags := detectSecurityFlags
    ([tr.homepage.html.getD [], tr.robots_txt.text.getD [], tr.sitemap_xml.text.getD []] ++
      tr.extra_pages.map (fun p => p.html.getD []))
  let analysis := analyzeArtifacts scanInput
  let hasHomepage := scanInput.homepage.isSome
  let hasRobots := scanInput.robots_txt.isSome
  let hasSitemap := scanInput.sitemap_xml.isSome
  let hasExtraPages := true
  let inputs_used :=
    (if hasHomepage then [str "homepage"] else []) ++
    (if hasRobots then [str "robots_txt"] else []) ++
    (if hasSitemap then [str "sitemap_xml"] else []) ++
    (if hasExtraPages then [str "extra_pages"] else [])
  let inputs_missing :=
    (if hasHomepage then [] else [str "homepage"]) ++
    (if hasRobots then [] else [str "robots_txt"]) ++
    (if hasSitemap then [] else [str "sitemap_xml"]) ++
    (if hasExtraPages then [] else [str "extra_pages"])
  { schema_version := str "1.0"
    scan_metadata :=
      { domain := scanInput.domain
        scan_date := scanInput.scan_date
        inputs_used := inputs_used
        inputs_missing := inputs_missing
        pages_analyzed := 1 + scanInput.extra_pages.length }
    result :=
      { risk_level := analysis.risk_level
        trajectory := analysis.trajectory
        counts := analysis.counts
        interpretation := analysis.interpretation }
    proof := analysis.proof
    module_readiness_hint := str "This is a public-signals screen. If RED/AMBER, prioritize indexation/canonical/robots fixes before scaling content or paid traffic."
    confidence_note := STD_CONFIDENCE_NOTE
    security_flags := security_flags
    cta_primary_label := str "Book Growth Blocker Audit"
    cta_primary_description := STD_CTA_PRIMARY_DESC
    cta_secondary_label := str "Learn About Core"
    cta_secondary_description := STD_CTA_SECONDARY_DESC }

/-- JS or-fallback on an optional string (null and the empty string are
falsy). -/
def jsOrStr (a : Option Str) (b : Str) : Str :=
  match a with
  | some s => if s = [] then b else s
  | none => b

/-- The request handler.  The query and body URL parameters and the
body baseline arrive pre-parsed; scanDate stands for the wall-clock
date string. -/
def handler (world : World) (qsUrl bodyUrl : Option Str) (baseline : Option Baseline)
    (scanDate : Str) : HandlerResult :=
  let urlInput := trimStr (jsOrStr qsUrl (jsOrStr bodyUrl []))
  if urlInput = [] then
    .errorResp 400
      { schema_version := str "1.0", error_type := .INVALID_URL,
        error_message := str "Missing ?url= parameter (or JSON body with { url })." }
  else
    match normalizeToOrigin urlInput with
    | none =>
      .errorResp 400
        { schema_version := str "1.0", error_type := .INVALID_URL,
          error_message := str "Invalid URL. Provide a domain or absolute http(s) URL." }
    | some originUrl =>
      match basicSsrfGuards originUrl with
      | some msg =>
        .errorResp 400
          { schema_version := str "1.0", error_type := .INVALID_URL, error_message := msg }
      | none =>
        match runScan world originUrl scanDate baseline with
        | none =>
          .errorResp 400
            { schema_version := str "1.0", error_type := .INSUFFICIENT_DATA,
              error_message := str "Homepage HTML unavailable (non-200, fetch failed, or non-HTML). Cannot run suppression screen." }
        | some tr => .okResp 200 (assembleOutput tr)

-- ------------------------------------------------------------------
-- Specification-side definitions (written from the wording of the
-- specification, for comparison with the source-derived definitions)
-- ------------------------------------------------------------------

/-- Value of a quoted attribute inside a (lower-cased) tag body,
reading up to the matching quote; none when the attribute is absent. -/
def specAttrValueAux (attrEq : Str) : Nat → Str → Option Str
  | 0, _ => none
  | fuel + 1, l =>
    match l with
    | [] => none
    | _ :: t =>
      if attrEq.isPrefixOf l then
        match l.drop attrEq.length with
        | q :: r => if q = '"' ∨ q = '\'' then some (r.takeWhile (fun c => c ≠ q)) else none
        | [] => none
      else specAttrValueAux attrEq fuel t

def specAttrValue (tag attrName : Str) : Option Str :=
  specAttrValueAux (attrName ++ [ '=' ]) (tag.length + 1) tag

/-- All meta tag bodies of a page, lower-cased, in document order. -/
def specMetaTagsAux : Nat → Str → List Str
  | 0, _ => []
  | fuel + 1, l =>
    match l with
    | [] => []
    | _ :: t =>
      if (str "<meta").isPrefixOf l then
        let body := l.takeWhile (fun c => c ≠ '>')
        body :: specMetaTagsAux fuel (l.drop body.length)
      else specMetaTagsAux fuel t

def specMetaTags (html : Str) : List Str :=
  specMetaTagsAux (html.length + 1) (lowerStr html)

/-- The specification wording of the meta-robots rule: the page HTML
contains a meta element whose name attribute is robots and whose
content attribute contains noindex. -/
def specMetaRobotsNoindex (html : Str) : Bool :=
  (specMetaTags html).any (fun tag =>
    (match specAttrValue tag (str "name") with
     | some v => decide (trimStr v = str "robots")
     | none => false) &&
    (match specAttrValue tag (str "content") with
     | some v => containsSub v (str "noindex")
     | none => false))

/-- The specification wording of the nav-page selection: sort, exclude
the root path, de-duplicate, take the first three. -/
def navPicksSpec (links : List Url) : List Url :=
  (uniqFirst ((sortLe navLe links).filter (fun u => decide (u.pathname ≠ str "/")))).take 3

/-- The specification wording of the sitemap contribution: the first
two non-root locations in document order. -/
def sitemapPicksSpec (locs : List Url) : List Url :=
  (locs.filter (fun u => decide (u.pathname ≠ str "/"))).take 2

/-- The specification wording of the extra-page list: nav picks then
sitemap picks, de-duplicated preserving order. -/
def extraUrlsSpec (links locs : List Url) : List Url :=
  uniqFirst (navPicksSpec links ++ sitemapPicksSpec locs)

/-- Content type of a response as the fetchers read it. -/
def respContentType (r : FetchResp) : Str :=
  (headerGet (lowerHeaders r.headers) (str "content-type")).getD []

/-- The homepage-availability condition actually enforced by the
handler: response present, status 200-399, HTML content type and a
nonempty sanitized-truncated body (the truthiness test on the stored
html). -/
def homepageAvailableCode (world : World) (o : Url) : Bool :=
  match world (urlToString o) with
  | none => false
  | some r =>
    (200 ≤ r.status && r.status < 400) && isProbablyHtml (respContentType r) &&
      decide (truncate (stripScriptsStylesComments r.body) MAX_HTML_CHARS ≠ [])

/-- Homepage availability as enumerated by the specification claim:
response present, status 200-399, HTML content type (no condition on
the body). -/
def homepageAvailableClaim (world : World) (o : Url) : Bool :=
  match world (urlToString o) with
  | none => false
  | some r => (200 ≤ r.status && r.status < 400) && isProbablyHtml (respContentType r)

/-- The HTML contents retained by a scan (homepage and extra pages). -/
def traceHtmlContents (tr : ScanTrace) : List Str :=
  optList tr.homepage.html ++ tr.extra_pages.filterMap (·.html)

/-- The text contents retained by a scan (robots and sitemap). -/
def traceTextContents (tr : ScanTrace) : List Str :=
  optList tr.robots_txt.text ++ optList tr.sitemap_xml.text

def keysOf (m : List (Str × Finding)) : List Str := m.map Prod.fst

/-- Every finding the rules can produce carries severity P0 or P2. -/
def sevIn (e : Str × Finding) : Prop :=
  e.2.severity = Severity.P0 ∨ e.2.severity = Severity.P2

/-- Number of findings at a given severity. -/
def sevCount (s : Severity) (fs : List (Str × Finding)) : Nat :=
  (fs.filter (fun e => decide (e.2.severity = s))).length

/-- Number of distinct root-cause keys at a given severity. -/
def distinctKeyCount (s : Severity) (fs : List (Str × Finding)) : Nat :=
  ((fs.filter (fun e => decide (e.2.severity = s))).map Prod.fst).dedup.length

/-- A page whose HTML carries a meta robots noindex element. -/
def metaNoindexHtml : Str := str "<meta name=\"robots\" content=\"noindex\"><title>t</title>"

def metaNoindexPage : ArtifactHtml :=
  { url := str "https://e.com/", final_url := str "https://e.com/", status := 200,
    headers := [], html := some metaNoindexHtml }

def metaNoindexInput : ScanInput :=
  { domain := str "https://e.com", scan_date := [], baseline := none,
    homepage := some metaNoindexPage, robots_txt := none, sitemap_xml := none,
    extra_pages := [], constraints := [] }

/-- A page whose HTML contains the double-quoted robots-name attribute
text and the word noindex in unrelated places, but no meta element
whose content attribute carries noindex. -/
def metaLooseHtml : Str :=
  str "<meta name=\"robots\" content=\"index,follow\"><title>t</title><p>noindex</p>"

def metaLoosePage : ArtifactHtml :=
  { url := str "https://e.com/", final_url := str "https://e.com/", status := 200,
    headers := [], html := some metaLooseHtml }

def metaLooseInput : ScanInput :=
  { domain := str "https://e.com", scan_date := [], baseline := none,
    homepage := some metaLoosePage, robots_txt := none, sitemap_xml := none,
    extra_pages := [], constraints := [] }

/-- The normalized origin of the input example.com. -/
def exOrigin : Url :=
  { scheme := str "https", username := [], password := [], host := str "example.com",
    port := [], pathname := str "/", search := [] }

/-- A homepage response that is a successful HTML response with an
empty body. -/
def emptyBodyResp : FetchResp :=
  { status := 200, headers := [(str "content-type", str "text/html")],
    body := [], resUrl := none }

/-- A world whose homepage returns 200 text/html with an empty body;
every other fetch fails. -/
def emptyBodyWorld : World :=
  fun u => if u = str "https://example.com/" then some emptyBodyResp else none

/-- A small healthy homepage response. -/
def okHomeResp : FetchResp :=
  { status := 200, headers := [(str "content-type", str "text/html")],
    body := str "<p>hi</p>", resUrl := none }

/-- A world with a healthy homepage and every other fetch failing. -/
def okHomeWorld : World :=
  fun u => if u = str "https://example.com/" then some okHomeResp else none

/-- The post-redirect homepage URL on a different origin. -/
def otherHome : Url :=
  { scheme := str "https", username := [], password := [], host := str "other.com",
    port := [], pathname := str "/", search := [] }

/-- A homepage response that redirects to a different origin. -/
def redirResp : FetchResp :=
  { status := 200, headers := [(str "content-type", str "text/html")],
    body := str "<p>hi</p>", resUrl := some otherHome }

/-- A world whose homepage fetch lands, after redirects, on a
different origin; every other fetch fails. -/
def redirWorld : World :=
  fun u => if u = str "https://example.com/" then some redirResp else none

/-- A robots body one character over the truncation limit. -/
def bigRobots : Str := List.replicate 120001 'a'

def bigRobotsResp : FetchResp :=
  { status := 200, headers := [], body := bigRobots, resUrl := none }

/-- A world with a healthy homepage and an oversized robots.txt; the
sitemap fetch fails. -/
def bigRobotsWorld : World := fun u =>
  if u = str "https://example.com/" then some okHomeResp
  else if u = str "https://example.com/robots.txt" then some bigRobotsResp
  else none

/-- Scenario S1: a valid homepage with a title element. -/
def s1HomeHtml : Str := str "<html><head><title>Hi</title></head><body></body></html>"

def s1HomeResp : FetchResp :=
  { status := 200, headers := [(str "content-type", str "text/html")],
    body := s1HomeHtml, resUrl := none }

/-- Scenario S1: a disallow-all robots file. -/
def s1RobotsResp : FetchResp :=
  { status := 200, headers := [], body := str "User-agent: *\nDisallow: /", resUrl := none }

/-- Scenario S1: the sitemap answers 404. -/
def s1SitemapResp : FetchResp :=
  { status := 404, headers := [], body := [], resUrl := none }

def s1World : World := fun u =>
  if u = str "https://example.com/" then some s1HomeResp
  else if u = str "https://example.com/robots.txt" then some s1RobotsResp
  else if u = str "https://example.com/sitemap.xml" then some s1SitemapResp
  else none

-- ------------------------------------------------------------------
-- Basic lemmas
-- ------------------------------------------------------------------

theorem str_ellipsis_length : (str "...").length = 3 := rfl

theorem truncate_length_le (s : Str) (m : Nat) : (truncate s m).length ≤ m + 3 := by
  unfold truncate
  split
  · omega
  · simp only [List.length_append, List.length_take, str_ellipsis_length]
    omega

theorem truncate_long (s : Str) (m : Nat) (h : m < s.length) :
    (truncate s m).length = m + 3 ∧ str "..." <:+ truncate s m := by
  unfold truncate
  rw [if_neg (by omega)]
  refine ⟨?_, ⟨s.take m, rfl⟩⟩
  simp only [List.length_append, List.length_take, str_ellipsis_length]
  omega

theorem truncate_short (s : Str) (m : Nat) (h : s.length ≤ m) : truncate s m = s := by
  unfold truncate
  exact if_pos h

/-- The two truncation regimes, read off the stored value alone. -/
theorem truncate_cases (s : Str) (m : Nat) :
    (truncate s m).length ≤ m ∨
      ((truncate s m).length = m + 3 ∧ str "..." <:+ truncate s m) := by
  by_cases h : s.length ≤ m
  · left
    rw [truncate_short s m h]
    exact h
  · right
    exact truncate_long s m (by omega)

theorem mem_uniqFirstAux {α : Type} [DecidableEq α] (a : α) :
    ∀ (l seen : List α), a ∈ uniqFirstAux seen l ↔ a ∈ l ∧ a ∉ seen := by
  intro l
  induction l with
  | nil => intro seen; simp [uniqFirstAux]
  | cons x xs ih =>
    intro seen
    simp only [uniqFirstAux]
    split
    · rename_i hx
      rw [ih]
      simp only [List.mem_cons]
      constructor
      · rintro ⟨h1, h2⟩
        exact ⟨Or.inr h1, h2⟩
      · rintro ⟨h1 | h1, h2⟩
        · exact absurd (h1 ▸ hx) h2
        · exact ⟨h1, h2⟩
    · rename_i hx
      simp only [List.mem_cons, ih, List.mem_cons]
      constructor
      · rintro (rfl | ⟨h1, h2⟩)
        · exact ⟨Or.inl rfl, fun h => hx h⟩
        · exact ⟨Or.inr h1, fun h => h2 (Or.inr h)⟩
      · rintro ⟨h1 | h1, h2⟩
        · exact Or.inl h1
        · by_cases hax : a = x
          · exact Or.inl hax
          · refine Or.inr ⟨h1, fun h => ?_⟩
            rcases h with h | h
            · exact hax h
            · exact h2 h

theorem mem_uniqFirst {α : Type} [DecidableEq α] (a : α) (l : List α) :
    a ∈ uniqFirst l ↔ a ∈ l := by
  simp [uniqFirst, mem_uniqFirstAux]

/-- uniqFirstAux only depends on the membership view of the seen set
restricted to the list. -/
theorem uniqFirstAux_congr {α : Type} [DecidableEq α] :
    ∀ (l s1 s2 : List α), (∀ x ∈ l, x ∈ s1 ↔ x ∈ s2) →
      uniqFirstAux s1 l = uniqFirstAux s2 l := by
  intro l
  induction l with
  | nil => intro s1 s2 _; rfl
  | cons x xs ih =>
    intro s1 s2 h
    simp only [uniqFirstAux]
    have hx := h x (List.mem_cons_self x xs)
    by_cases h1 : x ∈ s1
    · rw [if_pos h1, if_pos (hx.mp h1)]
      exact ih s1 s2 (fun y hy => h y (List.mem_cons_of_mem x hy))
    · rw [if_neg h1, if_neg (fun h2 => h1 (hx.mpr h2))]
      congr 1
      refine ih (x :: s1) (x :: s2) (fun y hy => ?_)
      have h3 := h y (List.mem_cons_of_mem x hy)
      simp only [List.mem_cons]
      tauto

theorem mem_insertLe {α : Type} (le : α → α → Bool) (x a : α) :
    ∀ l, a ∈ insertLe le x l ↔ a = x ∨ a ∈ l := by
  intro l
  induction l with
  | nil => simp [insertLe]
  | cons y ys ih =>
    simp only [insertLe]
    split
    · simp only [List.mem_cons, ih]
      tauto
    · simp only [List.mem_cons]

theorem mem_sortLe {α : Type} (le : α → α → Bool) (a : α) (l : List α) :
    a ∈ sortLe le l ↔ a ∈ l := by
  unfold sortLe
  suffices h : ∀ (l acc : List α), a ∈ l.foldl (fun acc x => insertLe le x acc) acc ↔
      a ∈ acc ∨ a ∈ l by
    rw [h l []]
    simp
  intro l
  induction l with
  | nil => intro acc; simp
  | cons x xs ih =>
    intro acc
    simp only [List.foldl_cons, ih, mem_insertLe, List.mem_cons]
    tauto

-- ------------------------------------------------------------------
-- Root-cause map lemmas
-- ------------------------------------------------------------------

theorem mem_addRC {m : List (Str × Finding)} {k : Str} {f : Finding} {e : Str × Finding}
    (h : e ∈ addRC m k f) : e ∈ m ∨ e = (k, f) := by
  unfold addRC at h
  split at h
  · exact Or.inl h
  · rcases List.mem_append.mp h with h | h
    · exact Or.inl h
    · exact Or.inr (List.mem_singleton.mp h)

theorem mem_keys_addRC {m : List (Str × Finding)} {k : Str} {f : Finding} {K : Str} :
    K ∈ keysOf (addRC m k f) ↔ K ∈ keysOf m ∨ K = k := by
  unfold addRC
  split
  · rename_i h
    constructor
    · exact Or.inl
    · rintro (h1 | rfl)
      · exact h1
      · rcases List.any_eq_true.mp h with ⟨e, he, hek⟩
        exact List.mem_map.mpr ⟨e, he, of_decide_eq_true hek⟩
  · simp [keysOf]

theorem nodup_keys_addRC {m : List (Str × Finding)} {k : Str} {f : Finding}
    (h : (keysOf m).Nodup) : (keysOf (addRC m k f)).Nodup := by
  unfold addRC
  split
  · exact h
  · rename_i hno
    have hk : k ∉ keysOf m := by
      intro hmem
      rcases List.mem_map.mp hmem with ⟨e, he, hek⟩
      exact hno (List.any_eq_true.mpr ⟨e, he, decide_eq_true hek⟩)
    rw [keysOf, List.map_append]
    refine List.Nodup.append h (List.nodup_singleton k) ?_
    intro a ha hak
    simp only [List.map_cons, List.map_nil, List.mem_singleton] at hak
    subst hak
    exact hk ha

theorem mem_condAdd {c : Bool} {m : List (Str × Finding)} {k : Str} {f : Finding}
    {e : Str × Finding} (h : e ∈ condAdd c m k f) : e ∈ m ∨ e = (k, f) := by
  unfold condAdd at h
  split at h
  · exact mem_addRC h
  · exact Or.inl h

theorem mem_keys_condAdd {c : Bool} {m : List (Str × Finding)} {k : Str} {f : Finding}
    {K : Str} : K ∈ keysOf (condAdd c m k f) ↔ K ∈ keysOf m ∨ (c = true ∧ K = k) := by
  unfold condAdd
  split <;> rename_i hc
  · rw [mem_keys_addRC]
    simp [hc]
  · simp [hc]

theorem mem_keys_optAdd {α : Type} {o : Option α} {m : List (Str × Finding)} {k : Str}
    {mk : α → Finding} {K : Str} :
    K ∈ keysOf (optAdd o m k mk) ↔ K ∈ keysOf m ∨ (o.isSome ∧ K = k) := by
  unfold optAdd
  cases o with
  | none => simp
  | some a =>
    rw [mem_keys_addRC]
    simp

theorem nodup_keys_condAdd {c : Bool} {m : List (Str × Finding)} {k : Str} {f : Finding}
    (h : (keysOf m).Nodup) : (keysOf (condAdd c m k f)).Nodup := by
  unfold condAdd
  split
  · exact nodup_keys_addRC h
  · exact h

theorem nodup_keys_optAdd {α : Type} {o : Option α} {m : List (Str × Finding)} {k : Str}
    {mk : α → Finding} (h : (keysOf m).Nodup) : (keysOf (optAdd o m k mk)).Nodup := by
  unfold optAdd
  cases o with
  | none => exact h
  | some a => exact nodup_keys_addRC h

theorem condAdd_pres {P : Str × Finding → Prop} {c : Bool} {m : List (Str × Finding)}
    {k : Str} {f : Finding} (hm : ∀ e ∈ m, P e) (hf : P (k, f)) :
    ∀ e ∈ condAdd c m k f, P e := by
  intro e he
  rcases mem_condAdd he with h | h
  · exact hm e h
  · rw [h]
    exact hf

theorem optAdd_pres {α : Type} {P : Str × Finding → Prop} {o : Option α}
    {m : List (Str × Finding)} {k : Str} {mk : α → Finding}
    (hm : ∀ e ∈ m, P e) (hf : ∀ a, P (k, mk a)) :
    ∀ e ∈ optAdd o m k mk, P e := by
  unfold optAdd
  cases o with
  | none => exact hm
  | some a =>
    intro e he
    rcases mem_addRC he with h | h
    · exact hm e h
    · rw [h]
      exact hf a

/-- Generic preservation through the per-page fold. -/
theorem foldl_pageStep_pres {P : Str × Finding → Prop}
    (hstep : ∀ m p, (∀ e ∈ m, P e) → ∀ e ∈ pageStep m p, P e) :
    ∀ (ps : List ArtifactHtml) (m : List (Str × Finding)),
      (∀ e ∈ m, P e) → ∀ e ∈ ps.foldl pageStep m, P e := by
  intro ps
  induction ps with
  | nil => intro m hm; simpa using hm
  | cons p ps ih =>
    intro m hm
    simp only [List.foldl_cons]
    exact ih _ (hstep m p hm)

theorem pageStep_pres_sev {m : List (Str × Finding)} {p : ArtifactHtml}
    (hm : ∀ e ∈ m, sevIn e) : ∀ e ∈ pageStep m p, sevIn e := by
  unfold pageStep
  dsimp only
  apply condAdd_pres
  · apply optAdd_pres
    · apply condAdd_pres
      · exact condAdd_pres hm (Or.inl rfl)
      · exact Or.inl rfl
    · intro a
      exact Or.inl rfl
  · exact Or.inr rfl

theorem findings_sev (input : ScanInput) : ∀ e ∈ findingsOf input, sevIn e := by
  unfold findingsOf
  dsimp only
  apply optAdd_pres
  · apply foldl_pageStep_pres (fun m p hm => pageStep_pres_sev hm)
    apply condAdd_pres
    · intro e he
      simp at he
    · exact Or.inl rfl
  · intro a
    exact Or.inr rfl

-- ------------------------------------------------------------------
-- Counting lemmas
-- ------------------------------------------------------------------

theorem countsOf_foldl : ∀ (fs : List (Str × Finding)) (c : Counts),
    fs.foldl countStep c =
      ⟨c.p0 + sevCount .P0 fs, c.p1 + sevCount .P1 fs,
       c.p2 + sevCount .P2 fs, c.p3 + sevCount .P3 fs⟩ := by
  intro fs
  induction fs with
  | nil => intro c; simp [sevCount]
  | cons e fs ih =>
    intro c
    simp only [List.foldl_cons, ih]
    unfold countStep sevCount
    cases h : e.2.severity <;>
      simp [h, List.filter_cons, Counts.mk.injEq, sevCount] <;> omega

theorem countsOf_eq (fs : List (Str × Finding)) :
    countsOf fs = ⟨sevCount .P0 fs, sevCount .P1 fs, sevCount .P2 fs, sevCount .P3 fs⟩ := by
  unfold countsOf
  rw [countsOf_foldl]
  simp

theorem sevCount_eq_distinct (s : Severity) (fs : List (Str × Finding))
    (h : (keysOf fs).Nodup) : distinctKeyCount s fs = sevCount s fs := by
  unfold distinctKeyCount sevCount
  have hsub : ((fs.filter (fun e => decide (e.2.severity = s))).map Prod.fst).Sublist
      (fs.map Prod.fst) := List.Sublist.map _ (List.filter_sublist fs)
  have hnd := hsub.nodup h
  rw [List.dedup_eq_self.mpr hnd, List.length_map]

theorem pageStep_nodup {m : List (Str × Finding)} {p : ArtifactHtml}
    (hm : (keysOf m).Nodup) : (keysOf (pageStep m p)).Nodup := by
  unfold pageStep
  dsimp only
  apply nodup_keys_condAdd
  apply nodup_keys_optAdd
  apply nodup_keys_condAdd
  apply nodup_keys_condAdd
  exact hm

theorem findings_keys_nodup (input : ScanInput) : (keysOf (findingsOf input)).Nodup := by
  unfold findingsOf
  dsimp only
  apply nodup_keys_optAdd
  have hfold : ∀ (ps : List ArtifactHtml) (m : List (Str × Finding)),
      (keysOf m).Nodup → (keysOf (ps.foldl pageStep m)).Nodup := by
    intro ps
    induction ps with
    | nil => intro m hm; simpa using hm
    | cons p ps ih =>
      intro m hm
      simp only [List.foldl_cons]
      exact ih _ (pageStep_nodup hm)
  apply hfold
  apply nodup_keys_condAdd
  simp [keysOf]

theorem analyzeArtifacts_counts (input : ScanInput) :
    (analyzeArtifacts input).counts = countsOf (findingsOf input) := rfl

theorem analyzeArtifacts_risk (input : ScanInput) :
    (analyzeArtifacts input).risk_level = riskOf (countsOf (findingsOf input)) := rfl

theorem riskOf_spec (c : Counts) :
    (riskOf c = .RED ↔ (1 ≤ c.p0 ∨ 3 ≤ c.p1)) ∧
    (¬ (1 ≤ c.p0 ∨ 3 ≤ c.p1) →
      (riskOf c = .AMBER ↔ (c.p0 = 0 ∧ ((1 ≤ c.p1 ∧ c.p1 ≤ 2) ∨ 5 ≤ c.p2)))) ∧
    (¬ (1 ≤ c.p0 ∨ 3 ≤ c.p1) → ¬ (c.p0 = 0 ∧ ((1 ≤ c.p1 ∧ c.p1 ≤ 2) ∨ 5 ≤ c.p2)) →
      riskOf c = .GREEN) := by
  unfold riskOf
  split_ifs with h1 h2 <;> simp_all

-- ------------------------------------------------------------------
-- Claim theorems: C1, C6, C10
-- ------------------------------------------------------------------

/-- C1: for every scan that produces a success report, the risk level
is RED iff p0 is at least 1 or p1 at least 3; otherwise AMBER iff p0 is
zero and (p1 between 1 and 2, or p2 at least 5); otherwise GREEN. -/
theorem risk_level_thresholds (input : ScanInput) :
    ((analyzeArtifacts input).risk_level = .RED ↔
      (1 ≤ (analyzeArtifacts input).counts.p0 ∨ 3 ≤ (analyzeArtifacts input).counts.p1)) ∧
    (¬ (1 ≤ (analyzeArtifacts input).counts.p0 ∨ 3 ≤ (analyzeArtifacts input).counts.p1) →
      ((analyzeArtifacts input).risk_level = .AMBER ↔
        ((analyzeArtifacts input).counts.p0 = 0 ∧
          ((1 ≤ (analyzeArtifacts input).counts.p1 ∧ (analyzeArtifacts input).counts.p1 ≤ 2) ∨
            5 ≤ (analyzeArtifacts input).counts.p2)))) ∧
    (¬ (1 ≤ (analyzeArtifacts input).counts.p0 ∨ 3 ≤ (analyzeArtifacts input).counts.p1) →
      ¬ ((analyzeArtifacts input).counts.p0 = 0 ∧
          ((1 ≤ (analyzeArtifacts input).counts.p1 ∧ (analyzeArtifacts input).counts.p1 ≤ 2) ∨
            5 ≤ (analyzeArtifacts input).counts.p2)) →
      (analyzeArtifacts input).risk_level = .GREEN) := by
  rw [analyzeArtifacts_risk, analyzeArtifacts_counts]
  exact riskOf_spec (countsOf (findingsOf input))

/-- C1 witness: the thresholds theorem applied to the empty scan input,
where the analyzer yields zero counts and a GREEN risk level. -/
theorem risk_level_thresholds_witness :
    (analyzeArtifacts
        { domain := [], scan_date := [], baseline := none, homepage := none,
          robots_txt := none, sitemap_xml := none, extra_pages := [],
          constraints := [] }).risk_level = .GREEN := by
  apply (risk_level_thresholds
    { domain := [], scan_date := [], baseline := none, homepage := none,
      robots_txt := none, sitemap_xml := none, extra_pages := [],
      constraints := [] }).2.2 <;> decide

/-- C6: no two findings of a scan share a root-cause key, and each
severity count equals the number of distinct root-cause keys carrying
that severity. -/
theorem root_cause_uniqueness (input : ScanInput) :
    (keysOf (findingsOf input)).Nodup ∧
    (analyzeArtifacts input).counts.p0 = distinctKeyCount .P0 (findingsOf input) ∧
    (analyzeArtifacts input).counts.p1 = distinctKeyCount .P1 (findingsOf input) ∧
    (analyzeArtifacts input).counts.p2 = distinctKeyCount .P2 (findingsOf input) ∧
    (analyzeArtifacts input).counts.p3 = distinctKeyCount .P3 (findingsOf input) := by
  have hnd := findings_keys_nodup input
  refine ⟨hnd, ?_, ?_, ?_, ?_⟩ <;>
    rw [analyzeArtifacts_counts, countsOf_eq, sevCount_eq_distinct _ _ hnd]

/-- C6 witness: uniqueness and counting at the empty scan input. -/
theorem root_cause_uniqueness_witness :
    (keysOf (findingsOf
      { domain := [], scan_date := [], baseline := none, homepage := none,
        robots_txt := none, sitemap_xml := none, extra_pages := [],
        constraints := [] })).Nodup :=
  (root_cause_uniqueness
    { domain := [], scan_date := [], baseline := none, homepage := none,
      robots_txt := none, sitemap_xml := none, extra_pages := [],
      constraints := [] }).1

/-- C10: the implemented rule set never emits P1 or P3 findings, so
the risk level reduces to RED iff p0 is at least 1 and AMBER iff p0 is
zero and p2 at least 5. -/
theorem implemented_rules_no_p1_p3 (input : ScanInput) :
    (analyzeArtifacts input).counts.p1 = 0 ∧
    (analyzeArtifacts input).counts.p3 = 0 ∧
    ((analyzeArtifacts input).risk_level = .RED ↔ 1 ≤ (analyzeArtifacts input).counts.p0) ∧
    ((analyzeArtifacts input).risk_level = .AMBER ↔
      ((analyzeArtifacts input).counts.p0 = 0 ∧ 5 ≤ (analyzeArtifacts input).counts.p2)) := by
  have hsev := findings_sev input
  have hp1 : sevCount .P1 (findingsOf input) = 0 := by
    unfold sevCount
    rw [List.length_eq_zero, List.filter_eq_nil_iff]
    intro e he
    rcases hsev e he with h | h <;> simp [h]
  have hp3 : sevCount .P3 (findingsOf input) = 0 := by
    unfold sevCount
    rw [List.length_eq_zero, List.filter_eq_nil_iff]
    intro e he
    rcases hsev e he with h | h <;> simp [h]
  rw [analyzeArtifacts_risk, analyzeArtifacts_counts, countsOf_eq]
  refine ⟨hp1, hp3, ?_, ?_⟩ <;>
    · unfold riskOf
      split_ifs with h1 h2 <;> simp_all <;> omega

/-- C10 witness: at the empty scan input the counts vanish and the
risk level is GREEN, satisfying both reduced equivalences. -/
theorem implemented_rules_no_p1_p3_witness :
    (analyzeArtifacts
      { domain := [], scan_date := [], baseline := none, homepage := none,
        robots_txt := none, sitemap_xml := none, extra_pages := [],
        constraints := [] }).counts.p1 = 0 :=
  (implemented_rules_no_p1_p3
    { domain := [], scan_date := [], baseline := none, homepage := none,
      robots_txt := none, sitemap_xml := none, extra_pages := [],
      constraints := [] }).1

-- ------------------------------------------------------------------
-- Meta-robots rule lemmas and claim C5
-- ------------------------------------------------------------------

theorem meta_key_pageStep {m : List (Str × Finding)} {p : ArtifactHtml} :
    str "META_ROBOTS_NOINDEX" ∈ keysOf (pageStep m p) ↔
      str "META_ROBOTS_NOINDEX" ∈ keysOf m ∨ metaRobotsCond p = true := by
  unfold pageStep
  dsimp only
  rw [mem_keys_condAdd, mem_keys_optAdd, mem_keys_condAdd, mem_keys_condAdd]
  have h1 : str "META_ROBOTS_NOINDEX" ≠ str "X_ROBOTS_NOINDEX" := by decide
  have h3 : str "META_ROBOTS_NOINDEX" ≠ str "CANONICAL_OFFDOMAIN" := by decide
  have h4 : str "META_ROBOTS_NOINDEX" ≠ str "MISSING_TITLE" := by decide
  simp [h1, h3, h4]

theorem meta_key_fold (ps : List ArtifactHtml) :
    ∀ m : List (Str × Finding),
      str "META_ROBOTS_NOINDEX" ∈ keysOf (ps.foldl pageStep m) ↔
        str "META_ROBOTS_NOINDEX" ∈ keysOf m ∨ ∃ p ∈ ps, metaRobotsCond p = true := by
  induction ps with
  | nil => intro m; simp
  | cons p ps ih =>
    intro m
    simp only [List.foldl_cons, ih, meta_key_pageStep, List.mem_cons]
    constructor
    · rintro ((h | h) | ⟨q, hq, hc⟩)
      · exact Or.inl h
      · exact Or.inr ⟨p, Or.inl rfl, h⟩
      · exact Or.inr ⟨q, Or.inr hq, hc⟩
    · rintro (h | ⟨q, rfl | hq, hc⟩)
      · exact Or.inl (Or.inl h)
      · exact Or.inl (Or.inr hc)
      · exact Or.inr ⟨q, hq, hc⟩

theorem xrobots_ne_meta : str "X_ROBOTS_NOINDEX" ≠ str "META_ROBOTS_NOINDEX" := by decide

theorem canonical_ne_meta : str "CANONICAL_OFFDOMAIN" ≠ str "META_ROBOTS_NOINDEX" := by decide

theorem missing_title_ne_meta : str "MISSING_TITLE" ≠ str "META_ROBOTS_NOINDEX" := by decide

theorem robots_ne_meta : str "ROBOTS_DISALLOW_ALL" ≠ str "META_ROBOTS_NOINDEX" := by decide

theorem dup_ne_meta : str "DUP_TITLES" ≠ str "META_ROBOTS_NOINDEX" := by decide

theorem pageStep_meta_sev {m : List (Str × Finding)} {p : ArtifactHtml}
    (hm : ∀ e ∈ m, e.1 = str "META_ROBOTS_NOINDEX" → e.2.severity = Severity.P0) :
    ∀ e ∈ pageStep m p, e.1 = str "META_ROBOTS_NOINDEX" → e.2.severity = Severity.P0 := by
  unfold pageStep
  dsimp only
  apply condAdd_pres
  · apply optAdd_pres
    · apply condAdd_pres
      · exact condAdd_pres hm (fun h => absurd h xrobots_ne_meta)
      · exact fun _ => rfl
    · intro a h
      exact absurd h canonical_ne_meta
  · intro h
    exact absurd h missing_title_ne_meta

theorem meta_findings_sev (input : ScanInput) :
    ∀ e ∈ findingsOf input, e.1 = str "META_ROBOTS_NOINDEX" → e.2.severity = Severity.P0 := by
  unfold findingsOf
  dsimp only
  apply optAdd_pres
  · apply foldl_pageStep_pres (fun m p hm => pageStep_meta_sev hm)
    apply condAdd_pres
    · intro e he
      simp at he
    · intro h
      exact absurd h robots_ne_meta
  · intro a h
    exact absurd h dup_ne_meta

/-- C5 (amended): the analyzer adds the P0 finding META_ROBOTS_NOINDEX
iff some analyzed page's lower-cased HTML contains the double-quoted
robots-name attribute text somewhere and the text noindex somewhere;
every finding under that key carries severity P0. -/
theorem meta_robots_rule (input : ScanInput) :
    (str "META_ROBOTS_NOINDEX" ∈ keysOf (findingsOf input) ↔
      ∃ p ∈ pagesOf input, metaRobotsCond p = true) ∧
    (∀ e ∈ findingsOf input, e.1 = str "META_ROBOTS_NOINDEX" →
      e.2.severity = Severity.P0) := by
  refine ⟨?_, meta_findings_sev input⟩
  unfold findingsOf dupTitlesStep
  dsimp only
  rw [mem_keys_optAdd, meta_key_fold, mem_keys_condAdd]
  have h1 : str "META_ROBOTS_NOINDEX" ≠ str "ROBOTS_DISALLOW_ALL" := by decide
  have h2 : str "META_ROBOTS_NOINDEX" ≠ str "DUP_TITLES" := by decide
  simp [h1, h2, keysOf]

/-- C5 witness: a homepage with a meta robots noindex element makes the
rule fire. -/
theorem meta_robots_rule_witness :
    str "META_ROBOTS_NOINDEX" ∈ keysOf (findingsOf metaNoindexInput) :=
  (meta_robots_rule metaNoindexInput).1.mpr
    ⟨metaNoindexPage, by decide, by decide⟩

/-- C5 counterexample: on HTML with a robots meta element whose content
does not carry noindex but with the word noindex elsewhere, the
analyzer adds META_ROBOTS_NOINDEX although no meta robots element has
noindex in its content attribute, refuting the claimed equivalence. -/
theorem meta_robots_claim_counterexample :
    str "META_ROBOTS_NOINDEX" ∈ keysOf (findingsOf metaLooseInput) ∧
    specMetaRobotsNoindex metaLooseHtml = false := by
  constructor
  · decide
  · decide

-- ------------------------------------------------------------------
-- Proof selection lemmas and claim C7
-- ------------------------------------------------------------------

theorem proofPickOf_nil : proofPickOf [] = none := rfl

theorem proofOf_eq_of_pick {input : ScanInput} {e : Str × Finding}
    (h : proofPickOf (findingsOf input) = some e) : proofOf input = renderProof e := by
  unfold proofOf
  rw [h]

/-- C7: the proof is a finding of minimal severity rank under the order
P0 before P1 before P2 before P3 whenever any finding exists; with no
findings the canned no-clear-suppressors proof at the scan domain is
emitted; and a picked P3 finding would be reported at severity P2. -/
theorem proof_selection (input : ScanInput) :
    (findingsOf input = [] → proofOf input = cannedProof input.domain) ∧
    (findingsOf input ≠ [] → ∃ e, proofPickOf (findingsOf input) = some e ∧
      e ∈ findingsOf input ∧
      (∀ g ∈ findingsOf input, rankSev e.2.severity ≤ rankSev g.2.severity) ∧
      proofOf input = renderProof e) ∧
    (∀ e, proofPickOf (findingsOf input) = some e →
      (renderProof e).severity =
        if e.2.severity = Severity.P3 then Severity.P2 else e.2.severity) := by
  refine ⟨?_, ?_, fun e _ => rfl⟩
  · intro h
    unfold proofOf
    rw [h, proofPickOf_nil]
  · intro hne
    by_cases hp0 : ∃ g ∈ findingsOf input, g.2.severity = Severity.P0
    · have hex : ∃ x, x ∈ orderedOf (findingsOf input) ∧
          (fun e => decide (e.2.severity = Severity.P0)) x = true := by
        obtain ⟨g, hg, hs⟩ := hp0
        exact ⟨g, (mem_sortLe _ g _).mpr hg, by simp [hs]⟩
      obtain ⟨e, hfind⟩ := Option.isSome_iff_exists.mp (List.find?_isSome.mpr hex)
      have hmem : e ∈ orderedOf (findingsOf input) := List.mem_of_find?_eq_some hfind
      have hsev : e.2.severity = Severity.P0 := by simpa using List.find?_some hfind
      have hpick : proofPickOf (findingsOf input) = some e := by
        unfold proofPickOf
        dsimp only
        rw [hfind]
        rfl
      exact ⟨e, hpick, (mem_sortLe _ e _).mp hmem,
        fun g _ => by rw [hsev]; exact Nat.zero_le _,
        proofOf_eq_of_pick hpick⟩
    · have hall : ∀ g ∈ findingsOf input, g.2.severity = Severity.P2 := fun g hg =>
        (findings_sev input g hg).resolve_left (fun h => hp0 ⟨g, hg, h⟩)
      have hfind0 : (orderedOf (findingsOf input)).find?
          (fun e => decide (e.2.severity = Severity.P0)) = none := by
        rw [List.find?_eq_none]
        intro x hx
        simp [hall x ((mem_sortLe _ x _).mp hx)]
      have hfind1 : (orderedOf (findingsOf input)).find?
          (fun e => decide (e.2.severity = Severity.P1)) = none := by
        rw [List.find?_eq_none]
        intro x hx
        simp [hall x ((mem_sortLe _ x _).mp hx)]
      have hex2 : ∃ x, x ∈ orderedOf (findingsOf input) ∧
          (fun e => decide (e.2.severity = Severity.P2)) x = true := by
        obtain ⟨g, hg⟩ := List.exists_mem_of_ne_nil _ hne
        exact ⟨g, (mem_sortLe _ g _).mpr hg, by simp [hall g hg]⟩
      obtain ⟨e, hfind⟩ := Option.isSome_iff_exists.mp (List.find?_isSome.mpr hex2)
      have hmem : e ∈ orderedOf (findingsOf input) := List.mem_of_find?_eq_some hfind
      have hsev : e.2.severity = Severity.P2 := by simpa using List.find?_some hfind
      have hpick : proofPickOf (findingsOf input) = some e := by
        unfold proofPickOf
        dsimp only
        rw [hfind0, hfind1, hfind]
        rfl
      refine ⟨e, hpick, (mem_sortLe _ e _).mp hmem, ?_, proofOf_eq_of_pick hpick⟩
      intro g hg
      rw [hsev, hall g hg]

/-- C7 witness: with no artifacts there are no findings and the canned
proof at the scan domain is emitted. -/
theorem proof_selection_witness :
    proofOf
      { domain := str "https://w.com", scan_date := [], baseline := none,
        homepage := none, robots_txt := none, sitemap_xml := none,
        extra_pages := [], constraints := [] } =
    cannedProof (str "https://w.com") :=
  (proof_selection
    { domain := str "https://w.com", scan_date := [], baseline := none,
      homepage := none, robots_txt := none, sitemap_xml := none,
      extra_pages := [], constraints := [] }).1 (by decide)

-- ------------------------------------------------------------------
-- Page-selection lemmas and claim C9
-- ------------------------------------------------------------------

theorem uniqFirstAux_length_le {α : Type} [DecidableEq α] :
    ∀ (l seen : List α), (uniqFirstAux seen l).length ≤ l.length := by
  intro l
  induction l with
  | nil => intro seen; simp [uniqFirstAux]
  | cons x xs ih =>
    intro seen
    simp only [uniqFirstAux]
    split
    · exact Nat.le_trans (ih seen) (Nat.le_succ _)
    · simpa using ih (x :: seen)

/-- The picking loop equals root-filtering, first-occurrence
de-duplication and a take, for any positive limit. -/
theorem pickNavAux_spec :
    ∀ (l seen : List Url) (n : Nat), 1 ≤ n →
      pickNavAux l seen n =
        (uniqFirstAux seen (l.filter (fun u => decide (u.pathname ≠ str "/")))).take n := by
  intro l
  induction l with
  | nil => intro seen n _; simp [pickNavAux, uniqFirstAux]
  | cons u rest ih =>
    intro seen n hn
    simp only [pickNavAux, List.filter_cons]
    by_cases hr : u.pathname = str "/"
    · have hcond : (decide (u.pathname ≠ str "/")) = false := by simp [hr]
      rw [hcond]
      simp only [Bool.false_eq_true, if_false]
      by_cases hs : u ∈ seen
      · rw [if_pos hs]
        exact ih seen n hn
      · rw [if_neg hs, if_pos hr, ih (u :: seen) n hn]
        have hcongr : uniqFirstAux (u :: seen)
            (rest.filter (fun v => decide (v.pathname ≠ str "/"))) =
            uniqFirstAux seen (rest.filter (fun v => decide (v.pathname ≠ str "/"))) := by
          apply uniqFirstAux_congr
          intro x hx
          have hxr : x.pathname ≠ str "/" := by
            have := List.of_mem_filter hx
            simpa using this
          have hxu : x ≠ u := fun h => hxr (h ▸ hr)
          simp [List.mem_cons, hxu]
        rw [hcongr]
    · have hcond : (decide (u.pathname ≠ str "/")) = true := by simp [hr]
      rw [hcond]
      simp only [if_true]
      by_cases hs : u ∈ seen
      · rw [if_pos hs]
        simp only [uniqFirstAux, if_pos hs]
        exact ih seen n hn
      · rw [if_neg hs, if_neg hr]
        simp only [uniqFirstAux, if_neg hs]
        obtain ⟨m, rfl⟩ : ∃ m, n = m + 1 := ⟨n - 1, by omega⟩
        rw [List.take_succ_cons]
        by_cases h1 : m + 1 ≤ 1
        · rw [if_pos h1]
          have : m = 0 := by omega
          subst this
          simp
        · rw [if_neg h1]
          simp only [Nat.add_sub_cancel]
          rw [ih (u :: seen) m (by omega)]

/-- C9: the extra-page list produced by the deterministic selector (nav
picks by keyword score, path length and lexicographic path, root
excluded, de-duplicated, first three; plus the first two non-root
sitemap locations; merged preserving order and de-duplicated) equals
the specification pipeline, and never exceeds five pages. -/
theorem extra_page_selection (links locs : List Url) :
    uniqFirst (pickPriorityNavPages links 3 ++
        (locs.filter (fun u => decide (u.pathname ≠ str "/"))).take 2) =
      extraUrlsSpec links locs ∧
    (uniqFirst (pickPriorityNavPages links 3 ++
        (locs.filter (fun u => decide (u.pathname ≠ str "/"))).take 2)).length ≤ 5 := by
  have hnav : pickPriorityNavPages links 3 = navPicksSpec links := by
    unfold pickPriorityNavPages navPicksSpec uniqFirst
    exact pickNavAux_spec (sortLe navLe links) [] 3 (by omega)
  constructor
  · rw [hnav]
    rfl
  · unfold uniqFirst
    refine Nat.le_trans (uniqFirstAux_length_le _ _) ?_
    rw [List.length_append, hnav]
    have h1 : (navPicksSpec links).length ≤ 3 := by
      unfold navPicksSpec
      exact List.length_take_le _ _
    have h2 : ((locs.filter (fun u => decide (u.pathname ≠ str "/"))).take 2).length ≤ 2 :=
      List.length_take_le _ _
    omega

/-- C9 witness: the selection theorem applied to empty link and
location lists. -/
theorem extra_page_selection_witness :
    (uniqFirst (pickPriorityNavPages [] 3 ++
        (List.filter (fun u => decide (u.pathname ≠ str "/")) []).take 2)).length ≤ 5 :=
  (extra_page_selection [] []).2

-- ------------------------------------------------------------------
-- Homepage-gate lemmas and claim C2
-- ------------------------------------------------------------------

theorem hasHomepageHtml_eq (world : World) (o : Url) :
    hasHomepageHtml (fetchHtmlArtifact world o).artifact = homepageAvailableCode world o := by
  unfold hasHomepageHtml fetchHtmlArtifact homepageAvailableCode respContentType
  cases hw : world (urlToString o) with
  | none => simp
  | some r =>
    dsimp only
    by_cases hct : isProbablyHtml ((headerGet (lowerHeaders r.headers) (str "content-type")).getD []) = true
    · by_cases hst : 200 ≤ r.status ∧ r.status < 400
      · simp [hct, hst]
      · simp [hct, hst]
    · simp [hct]

theorem runScan_none_iff (world : World) (o : Url) (d : Str) (b : Option Baseline) :
    runScan world o d b = none ↔ homepageAvailableCode world o = false := by
  unfold runScan
  rw [hasHomepageHtml_eq]
  split_ifs with h
  · simp only [Bool.not_eq_true] at h
    simp [h]
  · simp only [Bool.not_eq_true, Bool.not_eq_false] at h
    simp [h]

theorem runScan_some_of (world : World) (o : Url) (d : Str) (b : Option Baseline)
    (h : homepageAvailableCode world o = true) :
    runScan world o d b = some (runScanCore world o d b) := by
  unfold runScan
  rw [hasHomepageHtml_eq, h]
  simp

/-- C2 (amended): with a valid, guard-passing URL, the handler returns
the 400 INSUFFICIENT_DATA error document iff the homepage is
unavailable in the sense actually enforced by the code (fetch failure,
status outside 200-399, non-HTML content type, or an empty
sanitized-truncated body); when the homepage is available the handler
returns an HTTP 200 report regardless of every other fetch. -/
theorem insufficient_data_iff (world : World) (qsUrl bodyUrl : Option Str)
    (b : Option Baseline) (d : Str) (o : Url)
    (hnorm : normalizeToOrigin (trimStr (jsOrStr qsUrl (jsOrStr bodyUrl []))) = some o)
    (hguard : basicSsrfGuards o = none) :
    ((handler world qsUrl bodyUrl b d =
        .errorResp 400
          { schema_version := str "1.0", error_type := .INSUFFICIENT_DATA,
            error_message := str "Homepage HTML unavailable (non-200, fetch failed, or non-HTML). Cannot run suppression screen." }) ↔
      homepageAvailableCode world o = false) ∧
    (homepageAvailableCode world o = true →
      handler world qsUrl bodyUrl b d =
        .okResp 200 (assembleOutput (runScanCore world o d b))) := by
  have hne : trimStr (jsOrStr qsUrl (jsOrStr bodyUrl [])) ≠ [] := by
    intro h
    rw [h] at hnorm
    have hnil : normalizeToOrigin ([] : Str) = none := by decide
    rw [hnil] at hnorm
    exact Option.noConfusion hnorm
  unfold handler
  dsimp only
  rw [if_neg hne, hnorm]
  dsimp only
  rw [hguard]
  dsimp only
  constructor
  · cases hrs : runScan world o d b with
    | none =>
      dsimp only
      rw [← runScan_none_iff world o d b]
      simp [hrs]
    | some tr =>
      dsimp only
      constructor
      · intro h
        exact absurd h (by simp)
      · intro h
        rw [(runScan_none_iff world o d b).mpr h] at hrs
        exact absurd hrs (by simp)
  · intro hav
    rw [runScan_some_of world o d b hav]

/-- C2 witness: with a healthy homepage and every other fetch failing,
the handler still returns an HTTP 200 report. -/
theorem insufficient_data_iff_witness :
    handler okHomeWorld (some (str "example.com")) none none [] =
      .okResp 200 (assembleOutput (runScanCore okHomeWorld exOrigin [] none)) :=
  (insufficient_data_iff okHomeWorld (some (str "example.com")) none none [] exOrigin
    (by decide) (by decide)).2 (by decide)

/-- C2 counterexample: a homepage answering 200 with an HTML content
type but an empty body is available in the sense enumerated by the
claim, yet the handler returns the 400 INSUFFICIENT_DATA error
document. -/
theorem insufficient_data_claim_counterexample :
    handler emptyBodyWorld (some (str "example.com")) none none [] =
      .errorResp 400
        { schema_version := str "1.0", error_type := .INSUFFICIENT_DATA,
          error_message := str "Homepage HTML unavailable (non-200, fetch failed, or non-HTML). Cannot run suppression screen." } ∧
    normalizeToOrigin (str "example.com") = some exOrigin ∧
    homepageAvailableClaim emptyBodyWorld exOrigin = true := by
  refine ⟨by decide, by decide, by decide⟩

-- ------------------------------------------------------------------
-- Origin-confinement lemmas and claim C4
-- ------------------------------------------------------------------

theorem runScan_some_eq {world : World} {o : Url} {d : Str} {b : Option Baseline}
    {tr : ScanTrace} (h : runScan world o d b = some tr) :
    tr = runScanCore world o d b := by
  unfold runScan at h
  split_ifs at h
  all_goals first
    | exact Option.noConfusion h
    | exact (Option.some.inj h).symm

theorem urlWithPath_origin (b : Url) (p : Str) : (urlWithPath b p).origin = b.origin := rfl

theorem runScanCore_base (world : World) (o : Url) (d : Str) (b : Option Baseline) :
    (runScanCore world o d b).base = (fetchHtmlArtifact world o).finalUrl := rfl

theorem runScanCore_robotsUrl (world : World) (o : Url) (d : Str) (b : Option Baseline) :
    (runScanCore world o d b).robotsUrl =
      urlWithPath (fetchHtmlArtifact world o).finalUrl (str "/robots.txt") := rfl

theorem runScanCore_sitemapUrl (world : World) (o : Url) (d : Str) (b : Option Baseline) :
    (runScanCore world o d b).sitemapUrl =
      urlWithPath (fetchHtmlArtifact world o).finalUrl (str "/sitemap.xml") := rfl

theorem runScanCore_extraUrls (world : World) (o : Url) (d : Str) (b : Option Baseline) :
    (runScanCore world o d b).extraUrls =
      uniqFirst (pickPriorityNavPages
          (extractHomepageLinks ((fetchHtmlArtifact world o).artifact.html.getD [])
            ((fetchHtmlArtifact world o).finalUrl)) 3 ++
        sitemapPicksOf
          (fetchTextArtifact world
            (urlWithPath (fetchHtmlArtifact world o).finalUrl (str "/sitemap.xml"))).artifact
          ((fetchHtmlArtifact world o).finalUrl)) := rfl

theorem mem_pickNavAux : ∀ (l seen : List Url) (n : Nat) (u : Url),
    u ∈ pickNavAux l seen n → u ∈ l := by
  intro l
  induction l with
  | nil => intro seen n u h; simp [pickNavAux] at h
  | cons x xs ih =>
    intro seen n u h
    simp only [pickNavAux] at h
    split_ifs at h with h1 h2 h3
    · exact List.mem_cons_of_mem x (ih _ _ _ h)
    · exact List.mem_cons_of_mem x (ih _ _ _ h)
    · rw [List.mem_singleton] at h
      rw [h]
      exact List.mem_cons_self _ _
    · rcases List.mem_cons.mp h with hh | hh
      · rw [hh]
        exact List.mem_cons_self _ _
      · exact List.mem_cons_of_mem x (ih _ _ _ hh)

theorem mem_pickPriorityNavPages {links : List Url} {n : Nat} {u : Url}
    (h : u ∈ pickPriorityNavPages links n) : u ∈ links := by
  unfold pickPriorityNavPages at h
  exact (mem_sortLe navLe u links).mp (mem_pickNavAux _ _ _ _ h)

theorem extractHomepageLinks_origin (html : Str) (base : Url) :
    ∀ u ∈ extractHomepageLinks html base, u.origin = base.origin := by
  intro u hu
  unfold extractHomepageLinks at hu
  rw [mem_uniqFirst] at hu
  obtain ⟨raw, _, hf⟩ := List.mem_filterMap.mp hu
  dsimp only at hf
  split_ifs at hf
  cases habs : makeAbsoluteUrl (trimStr raw) base with
  | none =>
    rw [habs] at hf
    exact Option.noConfusion hf
  | some abs =>
    rw [habs] at hf
    dsimp only at hf
    split_ifs at hf with h3 h4
    have hsame : sameOrigin abs base = true := h3
    unfold sameOrigin at hsame
    have hor := of_decide_eq_true hsame
    rwa [Option.some.inj hf] at hor

theorem extractSitemapLocs_origin (xml : Str) (base : Url) :
    ∀ u ∈ extractSitemapLocs xml base, u.origin = base.origin := by
  intro u hu
  unfold extractSitemapLocs at hu
  rw [mem_uniqFirst] at hu
  obtain ⟨raw, _, hf⟩ := List.mem_filterMap.mp hu
  dsimp only at hf
  split_ifs at hf
  cases habs : makeAbsoluteUrl (trimStr raw) base with
  | none =>
    rw [habs] at hf
    exact Option.noConfusion hf
  | some abs =>
    rw [habs] at hf
    dsimp only at hf
    split_ifs at hf with h2
    have hsame : sameOrigin abs base = true := h2
    unfold sameOrigin at hsame
    have hor := of_decide_eq_true hsame
    rwa [Option.some.inj hf] at hor

theorem sitemapPicksOf_origin (s : ArtifactText) (base : Url) :
    ∀ u ∈ sitemapPicksOf s base, u.origin = base.origin := by
  intro u hu
  unfold sitemapPicksOf at hu
  split at hu
  · rename_i t _
    split_ifs at hu
    · have h1 := List.take_subset 2 _ hu
      have h2 := List.mem_of_mem_filter h1
      exact extractSitemapLocs_origin _ _ u h2
    · simp at hu
  · simp at hu

/-- C4 (amended): every URL fetched after the homepage (robots.txt,
sitemap.xml and each selected extra page) has the same origin as the
homepage's final post-redirect URL, the crawl base; when the homepage
redirects to another origin this differs from the normalized origin. -/
theorem origin_confinement (world : World) (o : Url) (d : Str) (b : Option Baseline)
    (tr : ScanTrace) (h : runScan world o d b = some tr) :
    ∀ u ∈ tr.robotsUrl :: tr.sitemapUrl :: tr.extraUrls, u.origin = tr.base.origin := by
  obtain rfl := runScan_some_eq h
  intro u hu
  rw [runScanCore_base]
  rcases List.mem_cons.mp hu with rfl | hu
  · rw [runScanCore_robotsUrl]
    exact urlWithPath_origin _ _
  · rcases List.mem_cons.mp hu with rfl | hu
    · rw [runScanCore_sitemapUrl]
      exact urlWithPath_origin _ _
    · rw [runScanCore_extraUrls] at hu
      rw [mem_uniqFirst] at hu
      rcases List.mem_append.mp hu with hu | hu
      · exact extractHomepageLinks_origin _ _ u (mem_pickPriorityNavPages hu)
      · exact sitemapPicksOf_origin _ _ u hu

/-- C4 witness: on the redirecting world, the robots URL shares the
origin of the crawl base. -/
theorem origin_confinement_witness :
    (runScanCore redirWorld exOrigin [] none).robotsUrl.origin =
      (runScanCore redirWorld exOrigin [] none).base.origin :=
  origin_confinement redirWorld exOrigin [] none _
    (runScan_some_of _ _ _ _ (by decide)) _ (List.mem_cons_self _ _)

/-- C4 counterexample: when the homepage of example.com redirects to
other.com, the scan succeeds and fetches robots.txt on other.com,
whose origin differs from the normalized homepage origin produced by
the URL normalizer. -/
theorem origin_confinement_claim_counterexample :
    ∃ tr, runScan redirWorld exOrigin [] none = some tr ∧
      normalizeToOrigin (str "example.com") = some exOrigin ∧
      tr.robotsUrl.origin ≠ exOrigin.origin := by
  refine ⟨runScanCore redirWorld exOrigin [] none,
    runScan_some_of _ _ _ _ (by decide), by decide, ?_⟩
  rw [runScanCore_robotsUrl]
  decide

-- ------------------------------------------------------------------
-- Truncation lemmas and claim C3
-- ------------------------------------------------------------------

theorem truncate_prop (s : Str) (m : Nat) :
    (truncate s m).length ≤ m + 3 ∧
      (m < (truncate s m).length →
        (truncate s m).length = m + 3 ∧ str "..." <:+ truncate s m) := by
  rcases truncate_cases s m with h | ⟨h1, h2⟩
  · exact ⟨by omega, fun hc => absurd hc (by omega)⟩
  · exact ⟨by omega, fun _ => ⟨h1, h2⟩⟩

theorem fetchHtml_html_truncate (world : World) (u : Url) (h : Str)
    (hh : (fetchHtmlArtifact world u).artifact.html = some h) :
    ∃ s, h = truncate s MAX_HTML_CHARS := by
  unfold fetchHtmlArtifact at hh
  cases hw : world (urlToString u) with
  | none =>
    rw [hw] at hh
    exact Option.noConfusion hh
  | some r =>
    rw [hw] at hh
    dsimp only at hh
    split_ifs at hh with h1 h2
    exact ⟨stripScriptsStylesComments r.body, (Option.some.inj hh).symm⟩

theorem fetchText_text_truncate (world : World) (u : Url) (t : Str)
    (ht : (fetchTextArtifact world u).artifact.text = some t) :
    ∃ s, t = truncate s MAX_TEXT_CHARS := by
  unfold fetchTextArtifact at ht
  cases hw : world (urlToString u) with
  | none =>
    rw [hw] at ht
    exact Option.noConfusion ht
  | some r =>
    rw [hw] at ht
    dsimp only at ht
    split_ifs at ht with h1
    exact ⟨r.body, (Option.some.inj ht).symm⟩

theorem runScanCore_homepage (world : World) (o : Url) (d : Str) (b : Option Baseline) :
    (runScanCore world o d b).homepage = (fetchHtmlArtifact world o).artifact := rfl

theorem runScanCore_robots (world : World) (o : Url) (d : Str) (b : Option Baseline) :
    (runScanCore world o d b).robots_txt =
      (fetchTextArtifact world (runScanCore world o d b).robotsUrl).artifact := rfl

theorem runScanCore_sitemap (world : World) (o : Url) (d : Str) (b : Option Baseline) :
    (runScanCore world o d b).sitemap_xml =
      (fetchTextArtifact world (runScanCore world o d b).sitemapUrl).artifact := rfl

theorem runScanCore_extra_pages (world : World) (o : Url) (d : Str) (b : Option Baseline) :
    (runScanCore world o d b).extra_pages =
      ((runScanCore world o d b).extraUrls.map (fetchHtmlArtifact world)).map
        (·.artifact) := rfl

/-- Every stored HTML or text content of a scan is a truncation at the
120000-character limit of some fetched body. -/
theorem trace_contents_truncate (world : World) (o : Url) (d : Str) (b : Option Baseline)
    (tr : ScanTrace) (h : runScan world o d b = some tr) :
    ∀ s ∈ traceHtmlContents tr ++ traceTextContents tr, ∃ raw, s = truncate raw 120000 := by
  obtain rfl := runScan_some_eq h
  intro s hs
  rcases List.mem_append.mp hs with hs | hs
  · unfold traceHtmlContents at hs
    rcases List.mem_append.mp hs with hs | hs
    · cases hhp : (runScanCore world o d b).homepage.html with
      | none =>
        rw [hhp] at hs
        simp [optList] at hs
      | some hh =>
        rw [hhp] at hs
        simp only [optList, List.mem_singleton] at hs
        subst hs
        rw [runScanCore_homepage] at hhp
        exact fetchHtml_html_truncate world o s hhp
    · obtain ⟨p, hp, hph⟩ := List.mem_filterMap.mp hs
      rw [runScanCore_extra_pages] at hp
      obtain ⟨f, hf, rfl⟩ := List.mem_map.mp hp
      obtain ⟨u, _, rfl⟩ := List.mem_map.mp hf
      exact fetchHtml_html_truncate world u s hph
  · unfold traceTextContents at hs
    rcases List.mem_append.mp hs with hs | hs
    · cases hrt : (runScanCore world o d b).robots_txt.text with
      | none =>
        rw [hrt] at hs
        simp [optList] at hs
      | some t =>
        rw [hrt] at hs
        simp only [optList, List.mem_singleton] at hs
        subst hs
        rw [runScanCore_robots] at hrt
        exact fetchText_text_truncate world _ s hrt
    · cases hst : (runScanCore world o d b).sitemap_xml.text with
      | none =>
        rw [hst] at hs
        simp [optList] at hs
      | some t =>
        rw [hst] at hs
        simp only [optList, List.mem_singleton] at hs
        subst hs
        rw [runScanCore_sitemap] at hst
        exact fetchText_text_truncate world _ s hst

/-- The truncation constraint is recorded whenever the homepage or an
extra page retains content ending in the ellipsis marker. -/
theorem runScanCore_truncation_constraint (world : World) (o : Url) (d : Str)
    (b : Option Baseline)
    (hcase :
      endsWithStr ((runScanCore world o d b).homepage.html.getD []) (str "...") = true ∨
      (runScanCore world o d b).extra_pages.any
        (fun p => endsWithStr (p.html.getD []) (str "...")) = true) :
    str "truncated_due_to_limits" ∈ (runScanCore world o d b).scanInput.constraints := by
  rcases hcase with hc | hc
  · rw [runScanCore_homepage] at hc
    show str "truncated_due_to_limits" ∈ (runScanCore world o d b).scanInput.constraints
    unfold runScanCore
    dsimp only
    rw [mem_uniqFirst]
    simp only [List.mem_append]
    left
    right
    rw [if_pos hc]
    exact List.mem_singleton.mpr rfl
  · rw [runScanCore_extra_pages, runScanCore_extraUrls] at hc
    show str "truncated_due_to_limits" ∈ (runScanCore world o d b).scanInput.constraints
    unfold runScanCore
    dsimp only
    rw [mem_uniqFirst]
    simp only [List.mem_append]
    right
    rw [if_pos hc]
    exact List.mem_singleton.mpr rfl

/-- C3 (amended): every artifact content retained by a scan is at most
120003 characters (the 120000-character slice plus the appended
ellipsis); content longer than 120000 characters is exactly 120003
characters and ends with the ellipsis; and the truncated_due_to_limits
constraint is recorded when the homepage or any extra page retains
ellipsis-terminated content (truncation of robots.txt or sitemap.xml
records no constraint). -/
theorem truncation_bounds (world : World) (o : Url) (d : Str) (b : Option Baseline)
    (tr : ScanTrace) (h : runScan world o d b = some tr) :
    (∀ s ∈ traceHtmlContents tr ++ traceTextContents tr,
      s.length ≤ 120003 ∧
        (120000 < s.length → s.length = 120003 ∧ str "..." <:+ s)) ∧
    ((endsWithStr (tr.homepage.html.getD []) (str "...") = true ∨
        tr.extra_pages.any (fun p => endsWithStr (p.html.getD []) (str "...")) = true) →
      str "truncated_due_to_limits" ∈ tr.scanInput.constraints) := by
  constructor
  · intro s hs
    obtain ⟨raw, rfl⟩ := trace_contents_truncate world o d b tr h s hs
    have h1 := (truncate_prop raw 120000).1
    refine ⟨by omega, fun hlt => ?_⟩
    have h2 := (truncate_prop raw 120000).2 hlt
    exact ⟨by omega, h2.2⟩
  · obtain rfl := runScan_some_eq h
    exact runScanCore_truncation_constraint world o d b

/-- C3 witness: the stored homepage content of the healthy world obeys
the 120003-character bound. -/
theorem truncation_bounds_witness :
    (truncate (stripScriptsStylesComments (str "<p>hi</p>")) MAX_HTML_CHARS).length ≤ 120003 :=
  ((truncation_bounds okHomeWorld exOrigin [] none _
      (runScan_some_of _ _ _ _ (by decide))).1 _ (by decide)).1

/-- C3 counterexample: an oversized robots.txt is stored with 120003
characters - more than the claimed 120000 - and, although truncated,
adds no truncated_due_to_limits constraint to the scan input. -/
theorem truncation_claim_counterexample :
    ∃ tr txt, runScan bigRobotsWorld exOrigin [] none = some tr ∧
      tr.robots_txt.text = some txt ∧ 120000 < txt.length ∧
      ¬ str "truncated_due_to_limits" ∈ tr.scanInput.constraints := by
  refine ⟨runScanCore bigRobotsWorld exOrigin [] none, truncate bigRobots MAX_TEXT_CHARS,
    runScan_some_of _ _ _ _ (by decide), rfl, ?_, by decide⟩
  have h1 : (120000 : Nat) < bigRobots.length := by
    unfold bigRobots
    rw [List.length_replicate]
    omega
  have h2 := (truncate_long bigRobots 120000 h1).1
  unfold MAX_TEXT_CHARS
  omega

-- ------------------------------------------------------------------
-- Scenario S1 and claim C8
-- ------------------------------------------------------------------

/-- A validated URL with an available homepage yields the assembled
200 report. -/
theorem handler_ok (world : World) (qs body : Option Str) (b : Option Baseline) (d : Str)
    (o : Url)
    (hnorm : normalizeToOrigin (trimStr (jsOrStr qs (jsOrStr body []))) = some o)
    (hguard : basicSsrfGuards o = none)
    (hav : homepageAvailableCode world o = true) :
    handler world qs body b d = .okResp 200 (assembleOutput (runScanCore world o d b)) := by
  have hne : trimStr (jsOrStr qs (jsOrStr body [])) ≠ [] := by
    intro hh
    rw [hh] at hnorm
    have hnil : normalizeToOrigin ([] : Str) = none := by decide
    rw [hnil] at hnorm
    exact Option.noConfusion hnorm
  unfold handler
  dsimp only
  rw [if_neg hne, hnorm]
  dsimp only
  rw [hguard]
  dsimp only
  rw [runScan_some_of world o d b hav]

/-- C8 (amended): in scenario S1 (valid homepage with a title,
disallow-all robots, sitemap 404, no selectable extra pages) the
handler returns a 200 report with risk level RED, at least one P0
finding, the ROBOTS_DISALLOW_ALL finding as the selected proof, the
sitemap failure recorded as the sitemap_unavailable constraint, and an
empty inputs_missing list. -/
theorem s1_scenario :
    handler s1World (some (str "example.com")) none none [] =
      .okResp 200 (assembleOutput (runScanCore s1World exOrigin [] none)) ∧
    (assembleOutput (runScanCore s1World exOrigin [] none)).result.risk_level = .RED ∧
    1 ≤ (assembleOutput (runScanCore s1World exOrigin [] none)).result.counts.p0 ∧
    Option.map Prod.fst
        (proofPickOf (findingsOf (runScanCore s1World exOrigin [] none).scanInput)) =
      some (str "ROBOTS_DISALLOW_ALL") ∧
    str "sitemap_unavailable" ∈ (runScanCore s1World exOrigin [] none).scanInput.constraints ∧
    (assembleOutput (runScanCore s1World exOrigin [] none)).scan_metadata.inputs_missing = [] :=
  ⟨handler_ok s1World _ _ _ _ _ (by decide) (by decide) (by decide),
    by decide, by decide, by decide, by decide, by decide⟩

/-- C8 counterexample: in scenario S1 the success report's
inputs_missing does not contain sitemap_xml (it is empty: the sitemap
artifact slot is structurally present with a 404 status), contradicting
the claimed expectation. -/
theorem s1_inputs_missing_counterexample :
    handler s1World (some (str "example.com")) none none [] =
      .okResp 200 (assembleOutput (runScanCore s1World exOrigin [] none)) ∧
    ¬ str "sitemap_xml" ∈
        (assembleOutput (runScanCore s1World exOrigin [] none)).scan_metadata.inputs_missing :=
  ⟨handler_ok s1World _ _ _ _ _ (by decide) (by decide) (by decide), by decide⟩
